import Mathlib

/-!
Verification development for an editor AI code-completion extension.

The development shallowly embeds the two core subsystems:

* the completion request pipeline of `src/completion/completionProvider.ts`
  (`getCompletionSuggestions` with its cache, per-key debounce map and the
  delayed execution that performs the backend call), modelled as explicit
  state passing over a `ProviderState` driven by arrival and timer-fire
  events;
* the static context analyzer of `src/utils/contextAnalyzer.ts`
  (`analyzeContext` and its helpers), with the JavaScript regular
  expressions of `initializeLanguageConfigs` translated construct by
  construct into a small backtracking matcher over `List Char`;
* the token counter of `src/utils/tokenCounter.ts` and the `delay`
  validation rule of the configuration manager.

Strings are treated as their lists of characters; timestamps (`Date.now()`)
are natural numbers supplied by the environment; the backend response and
the cancellation-signal readings are oracle inputs of the timer-fire event.
-/

/-! ### Character classes, mirroring the JavaScript regex classes -/

/-- Whitespace as matched by the regex class `\s` (and trimmed by
`String.prototype.trim`), restricted to the ASCII whitespace that can occur
in the analysed lines. -/
def wsChar (c : Char) : Bool :=
  c == ' ' || c == '\t' || c == '\n' || c == '\r'

/-- The regex word class `\w` = `[A-Za-z0-9_]`. -/
def isWordChar (c : Char) : Bool :=
  ('a' ≤ c && c ≤ 'z') || ('A' ≤ c && c ≤ 'Z') || ('0' ≤ c && c ≤ '9') || c == '_'

/-- The regex class `.`: any character except a line terminator. -/
def dotChar (c : Char) : Bool :=
  !(c == '\n' || c == '\r')

/-- The character list of a string literal. -/
def chars (s : String) : List Char :=
  s.data

/-- `String.prototype.trim`: strip leading and trailing whitespace. -/
def jsTrim (l : List Char) : List Char :=
  ((l.dropWhile wsChar).reverse.dropWhile wsChar).reverse

/-- `String.prototype.trim` expressed on `String` itself. -/
def jsTrimStr (s : String) : String :=
  String.mk (jsTrim (chars s))

/-- JavaScript `split(sep)` for a one-character separator. -/
def splitOnChar (c : Char) : List Char → List (List Char)
  | [] => [[]]
  | x :: xs =>
    if x = c then [] :: splitOnChar c xs
    else
      match splitOnChar c xs with
      | [] => [[x]]
      | h :: t => (x :: h) :: t

/-- `str.split(sep)[0]`. -/
def splitHead (c : Char) (l : List Char) : List Char :=
  (splitOnChar c l).headD []

/-! ### A small backtracking regex matcher

A matcher consumes a prefix of the input and returns the list of all ways
to do so, most-preferred first, exactly in the order a JavaScript regex
engine would try them (greedy quantifiers longest-first, alternatives
left-to-right).  Each way carries the capture groups recorded so far. -/

/-- Capture groups recorded along one parse: group number with the captured
characters. -/
abbrev Caps := List (Nat × List Char)

/-- A translated regex fragment: input and captures so far to the ordered
list of (remaining input, captures) outcomes. -/
abbrev RegexM := List Char → Caps → List (List Char × Caps)

/-- The empty fragment (matches nothing, consumes nothing). -/
def pemp : RegexM := fun s c => [(s, c)]

/-- A literal character sequence. -/
def plit (t : List Char) : RegexM := fun s c =>
  if t.isPrefixOf s then [(s.drop t.length, c)] else []

/-- A one-character class. -/
def pcls (f : Char → Bool) : RegexM := fun s c =>
  match s with
  | [] => []
  | x :: xs => if f x then [(xs, c)] else []

/-- Sequencing of fragments. -/
def pseq (p q : RegexM) : RegexM := fun s c =>
  (p s c).flatMap fun r => q r.1 r.2

/-- Alternation, left alternative preferred. -/
def palt (p q : RegexM) : RegexM := fun s c =>
  p s c ++ q s c

/-- A greedy optional fragment `(?:...)?`. -/
def popt (p : RegexM) : RegexM :=
  palt p pemp

/-- All suffixes reachable by consuming characters of class `f`,
longest consumption first. -/
def greedyTails (f : Char → Bool) : List Char → List (List Char)
  | [] => [[]]
  | x :: xs =>
    if f x then greedyTails f xs ++ [x :: xs]
    else [x :: xs]

/-- Greedy `f*` over a character class. -/
def pstar (f : Char → Bool) : RegexM := fun s c =>
  (greedyTails f s).map fun r => (r, c)

/-- Greedy `f+` over a character class. -/
def pplus (f : Char → Bool) : RegexM := fun s c =>
  match s with
  | [] => []
  | x :: xs => if f x then (greedyTails f xs).map fun r => (r, c) else []

/-- Fuelled greedy star of an arbitrary fragment (used for groups such as
`(?:\w+\s+)*`; the fragments iterated always consume at least one
character, so fuel `length + 1` is exhaustive). -/
def pstarPAux (p : RegexM) : Nat → RegexM
  | 0 => pemp
  | n + 1 => fun s c => (pseq p (pstarPAux p n)) s c ++ [(s, c)]

/-- Greedy `(?:...)*` over a fragment. -/
def pstarP (p : RegexM) : RegexM := fun s c =>
  pstarPAux p (s.length + 1) s c

/-- Greedy `(?:...)+` over a fragment. -/
def pplusP (p : RegexM) : RegexM :=
  pseq p (pstarP p)

/-- A capture group `(...)` with group number `n`. -/
def pgroup (n : Nat) (p : RegexM) : RegexM := fun s c =>
  (p s c).map fun r => (r.1, (n, s.take (s.length - r.1.length)) :: r.2)

/-- The word boundary `\b` when placed after a word character: succeeds
without consuming when the next character is absent or not a word
character. -/
def pnotword : RegexM := fun s c =>
  match s with
  | [] => [(s, c)]
  | x :: _ => if isWordChar x then [] else [(s, c)]

/-- `RegExp.prototype.exec` of an `^`-anchored pattern (no `g` flag):
the captures of the preferred match, if any. -/
def rexec (p : RegexM) (s : List Char) : Option Caps :=
  match p s [] with
  | [] => none
  | r :: _ => some r.2

/-- `RegExp.prototype.test` of an `^`-anchored pattern. -/
def rtest (p : RegexM) (s : List Char) : Bool :=
  !(p s []).isEmpty

/-- Look up capture group `n` (`undefined` when the group did not
participate in the match). -/
def capGet (caps : Caps) (n : Nat) : Option (List Char) :=
  (caps.find? fun e => e.1 == n).map fun e => e.2

/-- JavaScript `x || fallback` on a possibly-undefined string: the empty
string is falsy. -/
def jsOrStr (o : Option (List Char)) (dflt : List Char) : List Char :=
  match o with
  | some s => if s.isEmpty then dflt else s
  | none => dflt

/-- Boundary check before a match position for `\b`: start of input or a
non-word character. -/
def boundaryBefore : Option Char → Bool
  | none => true
  | some c => !isWordChar c

/-- Boundary check after a match for `\b`: end of input or a non-word
character. -/
def boundaryAfter : List Char → Bool
  | [] => true
  | c :: _ => !isWordChar c

/-- The unanchored test of `/\basync\b/`, threading the previous character
for the left word boundary. -/
def testAsyncAux : Option Char → List Char → Bool
  | _, [] => false
  | prev, c :: rest =>
    (boundaryBefore prev && (chars "async").isPrefixOf (c :: rest)
      && boundaryAfter ((c :: rest).drop 5))
    || testAsyncAux (some c) rest

/-- `asyncPattern.test` for the configs whose `asyncPattern` is
`/\basync\b/`. -/
def testWordAsync (l : List Char) : Bool :=
  testAsyncAux none l

/-! ### Language configurations (`initializeLanguageConfigs`) -/

/-- `\s*` -/
def sStar : RegexM := pstar wsChar

/-- `\s+` -/
def sPlus : RegexM := pplus wsChar

/-- `\w+` -/
def wPlus : RegexM := pplus isWordChar

/-- The class `['"]`. -/
def quoteChar (c : Char) : Bool :=
  c == '\'' || c == '"'

/-- The pattern bundle a `LanguageConfig` holds; `exec`/`test`-able
patterns are matcher fragments, `asyncPattern` is only ever `test`ed
unanchored. -/
structure LanguageConfig where
  functionPattern : RegexM
  classPattern : RegexM
  importPattern : RegexM
  variablePattern : RegexM
  commentPattern : RegexM
  stringPattern : RegexM
  conditionalPattern : RegexM
  loopPattern : RegexM
  returnPattern : RegexM
  tryCatchPattern : RegexM
  propertyPattern : Option RegexM := none
  asyncPattern : Option (List Char → Bool) := none

/-- JavaScript
`^(?:async\s+)?(?:function\s+(\w+)|const\s+(\w+)\s*=\s*(?:async\s+)?\([^)]*\)\s*=>|(?:const|let|var)\s+(\w+)\s*=\s*(?:async\s+)?function)` -/
def jsFunctionPattern : RegexM :=
  pseq (popt (pseq (plit (chars "async")) sPlus))
    (palt
      (pseq (plit (chars "function")) (pseq sPlus (pgroup 1 wPlus)))
      (palt
        (pseq (plit (chars "const"))
          (pseq sPlus
            (pseq (pgroup 2 wPlus)
              (pseq sStar
                (pseq (plit (chars "="))
                  (pseq sStar
                    (pseq (popt (pseq (plit (chars "async")) sPlus))
                      (pseq (plit (chars "("))
                        (pseq (pstar fun c => !(c == ')'))
                          (pseq (plit (chars ")"))
                            (pseq sStar (plit (chars "=>")))))))))))))
        (pseq (palt (plit (chars "const")) (palt (plit (chars "let")) (plit (chars "var"))))
          (pseq sPlus
            (pseq (pgroup 3 wPlus)
              (pseq sStar
                (pseq (plit (chars "="))
                  (pseq sStar
                    (pseq (popt (pseq (plit (chars "async")) sPlus))
                      (plit (chars "function")))))))))))

/-- JavaScript
`^class\s+(\w+)(?:\s+extends\s+(\w+))?(?:\s+implements\s+([^{]+))?\s*{` -/
def jsClassPattern : RegexM :=
  pseq (plit (chars "class"))
    (pseq sPlus
      (pseq (pgroup 1 wPlus)
        (pseq (popt (pseq sPlus (pseq (plit (chars "extends")) (pseq sPlus (pgroup 2 wPlus)))))
          (pseq (popt (pseq sPlus (pseq (plit (chars "implements")) (pseq sPlus (pgroup 3 (pplus fun c => !(c == '{')))))))
            (pseq sStar (pcls fun c => c == '{'))))))

/-- JavaScript
`^(?:import\s+.*from\s+['"][^'"]+['"]|const\s+.*=\s*require\(['"][^'"]+['"]\))` -/
def jsImportPattern : RegexM :=
  palt
    (pseq (plit (chars "import"))
      (pseq sPlus
        (pseq (pstar dotChar)
          (pseq (plit (chars "from"))
            (pseq sPlus
              (pseq (pcls quoteChar)
                (pseq (pplus fun c => !(quoteChar c)) (pcls quoteChar))))))))
    (pseq (plit (chars "const"))
      (pseq sPlus
        (pseq (pstar dotChar)
          (pseq (plit (chars "="))
            (pseq sStar
              (pseq (plit (chars "require("))
                (pseq (pcls quoteChar)
                  (pseq (pplus fun c => !(quoteChar c))
                    (pseq (pcls quoteChar) (plit (chars ")")))))))))))

/-- JavaScript `^(?:const|let|var)\s+(\w+)(?::\s*(\w+))?(?:\s*=\s*(.+))?` -/
def jsVariablePattern : RegexM :=
  pseq (palt (plit (chars "const")) (palt (plit (chars "let")) (plit (chars "var"))))
    (pseq sPlus
      (pseq (pgroup 1 wPlus)
        (pseq (popt (pseq (plit (chars ":")) (pseq sStar (pgroup 2 wPlus))))
          (popt (pseq sStar (pseq (plit (chars "=")) (pseq sStar (pgroup 3 (pplus dotChar)))))))))

/-- `^(?:if|else\s+if|switch)\s*\(` -/
def cStyleConditionalPattern : RegexM :=
  pseq (palt (plit (chars "if"))
        (palt (pseq (plit (chars "else")) (pseq sPlus (plit (chars "if")))) (plit (chars "switch"))))
    (pseq sStar (plit (chars "(")))

/-- `^(?:for|while|do)\s*\(` -/
def jsLoopPattern : RegexM :=
  pseq (palt (plit (chars "for")) (palt (plit (chars "while")) (plit (chars "do"))))
    (pseq sStar (plit (chars "(")))

/-- `^(?:for|while)\s*\(` -/
def cStyleLoopPattern : RegexM :=
  pseq (palt (plit (chars "for")) (plit (chars "while")))
    (pseq sStar (plit (chars "(")))

/-- `^return\b` -/
def returnWordPattern : RegexM :=
  pseq (plit (chars "return")) pnotword

/-- `^(?:try|catch|finally)\b` -/
def tryCatchFinallyPattern : RegexM :=
  pseq (palt (plit (chars "try")) (palt (plit (chars "catch")) (plit (chars "finally")))) pnotword

/-- JavaScript `^(?:this\.|const\s+(\w+)\s*=)` -/
def jsPropertyPattern : RegexM :=
  palt (plit (chars "this."))
    (pseq (plit (chars "const"))
      (pseq sPlus (pseq (pgroup 1 wPlus) (pseq sStar (plit (chars "="))))))

/-- Python `^(?:async\s+)?def\s+(\w+)\s*\(([^)]*)\)(?:\s*->\s*(\w+))?:` -/
def pyFunctionPattern : RegexM :=
  pseq (popt (pseq (plit (chars "async")) sPlus))
    (pseq (plit (chars "def"))
      (pseq sPlus
        (pseq (pgroup 1 wPlus)
          (pseq sStar
            (pseq (plit (chars "("))
              (pseq (pgroup 2 (pstar fun c => !(c == ')')))
                (pseq (plit (chars ")"))
                  (pseq (popt (pseq sStar (pseq (plit (chars "->")) (pseq sStar (pgroup 3 wPlus)))))
                    (plit (chars ":"))))))))))

/-- Python `^class\s+(\w+)(?:\s*\(\s*([^)]+)\s*\))?:` -/
def pyClassPattern : RegexM :=
  pseq (plit (chars "class"))
    (pseq sPlus
      (pseq (pgroup 1 wPlus)
        (pseq (popt (pseq sStar
            (pseq (plit (chars "("))
              (pseq sStar
                (pseq (pgroup 2 (pplus fun c => !(c == ')')))
                  (pseq sStar (plit (chars ")"))))))))
          (plit (chars ":")))))

/-- Python `^(?:import\s+\w+|from\s+\w+\s+import)` -/
def pyImportPattern : RegexM :=
  palt (pseq (plit (chars "import")) (pseq sPlus wPlus))
    (pseq (plit (chars "from")) (pseq sPlus (pseq wPlus (pseq sPlus (plit (chars "import"))))))

/-- Python `^(\w+)\s*=\s*(.+)` -/
def pyVariablePattern : RegexM :=
  pseq (pgroup 1 wPlus)
    (pseq sStar (pseq (plit (chars "=")) (pseq sStar (pgroup 2 (pplus dotChar)))))

/-- Python `^(?:if|elif|else)\s+` -/
def pyConditionalPattern : RegexM :=
  pseq (palt (plit (chars "if")) (palt (plit (chars "elif")) (plit (chars "else")))) sPlus

/-- Python `^(?:for|while)\s+` -/
def pyLoopPattern : RegexM :=
  pseq (palt (plit (chars "for")) (plit (chars "while"))) sPlus

/-- Python `^(?:try|except|finally)\b` -/
def pyTryCatchPattern : RegexM :=
  pseq (palt (plit (chars "try")) (palt (plit (chars "except")) (plit (chars "finally")))) pnotword

/-- Java
`^(?:public|private|protected)?\s*(?:static)?\s*(?:\w+\s+)*(\w+)\s*\(([^)]*)\)\s*(?:throws\s+[^{]+)?\s*[{;]` -/
def javaFunctionPattern : RegexM :=
  pseq (popt (palt (plit (chars "public")) (palt (plit (chars "private")) (plit (chars "protected")))))
    (pseq sStar
      (pseq (popt (plit (chars "static")))
        (pseq sStar
          (pseq (pstarP (pseq wPlus sPlus))
            (pseq (pgroup 1 wPlus)
              (pseq sStar
                (pseq (plit (chars "("))
                  (pseq (pgroup 2 (pstar fun c => !(c == ')')))
                    (pseq (plit (chars ")"))
                      (pseq sStar
                        (pseq (popt (pseq (plit (chars "throws")) (pseq sPlus (pplus fun c => !(c == '{')))))
                          (pseq sStar (pcls fun c => c == '{' || c == ';')))))))))))))

/-- Java
`^(?:public\s+)?class\s+(\w+)(?:\s+extends\s+(\w+))?(?:\s+implements\s+([^{]+))?\s*{` -/
def javaClassPattern : RegexM :=
  pseq (popt (pseq (plit (chars "public")) sPlus))
    (pseq (plit (chars "class"))
      (pseq sPlus
        (pseq (pgroup 1 wPlus)
          (pseq (popt (pseq sPlus (pseq (plit (chars "extends")) (pseq sPlus (pgroup 2 wPlus)))))
            (pseq (popt (pseq sPlus (pseq (plit (chars "implements")) (pseq sPlus (pgroup 3 (pplus fun c => !(c == '{')))))))
              (pseq sStar (pcls fun c => c == '{')))))))

/-- Java `^import\s+([^;]+);` -/
def javaImportPattern : RegexM :=
  pseq (plit (chars "import"))
    (pseq sPlus (pseq (pgroup 1 (pplus fun c => !(c == ';'))) (plit (chars ";"))))

/-- Java `^(?:final\s+)?(?:\w+\s+)+(\w+)(?:\s*=\s*(.+))?` -/
def javaVariablePattern : RegexM :=
  pseq (popt (pseq (plit (chars "final")) sPlus))
    (pseq (pplusP (pseq wPlus sPlus))
      (pseq (pgroup 1 wPlus)
        (popt (pseq sStar (pseq (plit (chars "=")) (pseq sStar (pgroup 2 (pplus dotChar))))))))

/-- `^(?:\/\/|\/\*)` -/
def slashCommentPattern : RegexM :=
  palt (plit (chars "//")) (plit (chars "/*"))

/-- C++ `^(?:\w+\s+)*(\w+)\s*\(([^)]*)\)(?:\s*const)?\s*(?:\{|;)` -/
def cppFunctionPattern : RegexM :=
  pseq (pstarP (pseq wPlus sPlus))
    (pseq (pgroup 1 wPlus)
      (pseq sStar
        (pseq (plit (chars "("))
          (pseq (pgroup 2 (pstar fun c => !(c == ')')))
            (pseq (plit (chars ")"))
              (pseq (popt (pseq sStar (plit (chars "const"))))
                (pseq sStar (palt (pcls fun c => c == '{') (plit (chars ";"))))))))))

/-- C++ `^class\s+(\w+)(?:\s*:\s*(?:public|private|protected)\s+(\w+))?\s*{` -/
def cppClassPattern : RegexM :=
  pseq (plit (chars "class"))
    (pseq sPlus
      (pseq (pgroup 1 wPlus)
        (pseq (popt (pseq sStar
            (pseq (plit (chars ":"))
              (pseq sStar
                (pseq (palt (plit (chars "public")) (palt (plit (chars "private")) (plit (chars "protected"))))
                  (pseq sPlus (pgroup 2 wPlus)))))))
          (pseq sStar (pcls fun c => c == '{')))))

/-- C++ `^#include\s*[<"][^>"]+[>"]` -/
def cppImportPattern : RegexM :=
  pseq (plit (chars "#include"))
    (pseq sStar
      (pseq (pcls fun c => c == '<' || c == '"')
        (pseq (pplus fun c => !(c == '>' || c == '"')) (pcls fun c => c == '>' || c == '"'))))

/-- C++ `^(?:\w+\s+)+(\w+)(?:\s*=\s*(.+))?` -/
def cppVariablePattern : RegexM :=
  pseq (pplusP (pseq wPlus sPlus))
    (pseq (pgroup 1 wPlus)
      (popt (pseq sStar (pseq (plit (chars "=")) (pseq sStar (pgroup 2 (pplus dotChar)))))))

/-- C++ `^(?:try|catch)\b` -/
def cppTryCatchPattern : RegexM :=
  pseq (palt (plit (chars "try")) (plit (chars "catch"))) pnotword

/-- The JavaScript/TypeScript configuration entry. -/
def javascriptConfig : LanguageConfig where
  functionPattern := jsFunctionPattern
  classPattern := jsClassPattern
  importPattern := jsImportPattern
  variablePattern := jsVariablePattern
  commentPattern := plit (chars "//")
  stringPattern := pcls quoteChar
  conditionalPattern := cStyleConditionalPattern
  loopPattern := jsLoopPattern
  returnPattern := returnWordPattern
  tryCatchPattern := tryCatchFinallyPattern
  propertyPattern := some jsPropertyPattern
  asyncPattern := some testWordAsync

/-- The Python configuration entry. -/
def pythonConfig : LanguageConfig where
  functionPattern := pyFunctionPattern
  classPattern := pyClassPattern
  importPattern := pyImportPattern
  variablePattern := pyVariablePattern
  commentPattern := plit (chars "#")
  stringPattern := pcls quoteChar
  conditionalPattern := pyConditionalPattern
  loopPattern := pyLoopPattern
  returnPattern := returnWordPattern
  tryCatchPattern := pyTryCatchPattern
  asyncPattern := some testWordAsync

/-- The Java configuration entry. -/
def javaConfig : LanguageConfig where
  functionPattern := javaFunctionPattern
  classPattern := javaClassPattern
  importPattern := javaImportPattern
  variablePattern := javaVariablePattern
  commentPattern := slashCommentPattern
  stringPattern := pcls fun c => c == '"'
  conditionalPattern := cStyleConditionalPattern
  loopPattern := cStyleLoopPattern
  returnPattern := returnWordPattern
  tryCatchPattern := tryCatchFinallyPattern

/-- The C++ configuration entry. -/
def cppConfig : LanguageConfig where
  functionPattern := cppFunctionPattern
  classPattern := cppClassPattern
  importPattern := cppImportPattern
  variablePattern := cppVariablePattern
  commentPattern := slashCommentPattern
  stringPattern := pcls fun c => c == '"'
  conditionalPattern := cStyleConditionalPattern
  loopPattern := cStyleLoopPattern
  returnPattern := returnWordPattern
  tryCatchPattern := cppTryCatchPattern

/-- The registry populated by `initializeLanguageConfigs`
(`languageConfigs.get(language)`). -/
def languageConfigs (language : String) : Option LanguageConfig :=
  if language = "javascript" then some javascriptConfig
  else if language = "python" then some pythonConfig
  else if language = "java" then some javaConfig
  else if language = "cpp" then some cppConfig
  else none

/-! ### Editor document model (the read-only accessor surface the core uses) -/

/-- The slice of `vscode.TextDocument` the core reads: a stable identity
(`uri.fsPath`), the language id, and the lines of text. -/
structure Document where
  fsPath : String
  languageId : String
  lines : List String
deriving DecidableEq, Repr

/-- `vscode.Position`: zero-based line and column. -/
structure Position where
  line : Nat
  character : Nat
deriving DecidableEq, Repr

/-- `document.lineAt(i).text` (out-of-range reads, which the source never
performs, give the empty line). -/
def lineAt (d : Document) (i : Nat) : String :=
  d.lines.getD i ""

/-- `document.lineCount`. -/
def lineCount (d : Document) : Nat :=
  d.lines.length

/-! ### Context analyzer data model (`contextAnalyzer.ts`) -/

/-- `FunctionScope`. -/
structure FunctionScope where
  name : List Char
  parameters : List (List Char)
  returnType : Option (List Char)
  startLine : Nat
  endLine : Option Nat := none
  isAsync : Bool
deriving DecidableEq, Repr

/-- `ClassScope` (`extendsClass` embeds the source field `extends`, a
reserved word in Lean; `analyzeClassScope` never sets `implements`). -/
structure ClassScope where
  name : List Char
  extendsClass : Option (List Char)
  implementsList : Option (List Char) := none
  startLine : Nat
  endLine : Option Nat := none
  methods : List (List Char)
  properties : List (List Char)
deriving DecidableEq, Repr

/-- The `scope` field of `VariableInfo` (`localScope`/`parameterScope`/
`globalScope` embed the source literals `local`/`parameter`/`global`). -/
inductive VarScope where
  | localScope
  | parameterScope
  | globalScope
deriving DecidableEq, Repr

/-- `VariableInfo`. -/
structure VariableInfo where
  name : List Char
  type : Option (List Char)
  value : Option (List Char)
  line : Nat
  scope : VarScope
deriving DecidableEq, Repr

/-- `CodeType`. -/
inductive CodeType where
  | function_declaration
  | function_call
  | class_declaration
  | variable_declaration
  | import_statement
  | comment
  | string_literal
  | conditional_statement
  | loop_statement
  | return_statement
  | try_catch
  | interface_declaration
  | type_declaration
  | general
deriving DecidableEq, Repr

/-- `CodeContext` (the `currentLine` field holds the current-line prefix,
exactly as `analyzeContext` builds it; `variablesInfo` embeds the source
field `variables`, a reserved word in Lean). -/
structure CodeContext where
  language : String
  currentLine : String
  previousLines : List String
  nextLines : List String
  functionScope : Option FunctionScope
  classScope : Option ClassScope
  importStatements : List (List Char)
  variablesInfo : List VariableInfo
  codeType : CodeType
  indentation : List Char
deriving DecidableEq, Repr

/-! ### Context analyzer operations -/

/-- `extractParameters`: split on commas, trim, drop empties, then strip
default values (`=`) and type annotations (`:`). -/
def extractParameters (paramStr : List Char) : List (List Char) :=
  let params := ((splitOnChar ',' paramStr).map fun p => jsTrim p).filter fun p => !p.isEmpty
  params.map fun param => jsTrim (splitHead ':' (splitHead '=' param))

/-- The body of the backward scan of `analyzeFunctionScope` at one line. -/
def functionScopeAt (config : LanguageConfig) (d : Document) (line : Nat) :
    Option FunctionScope :=
  let trimmedLine := jsTrim (chars (lineAt d line))
  match rexec config.functionPattern trimmedLine with
  | some caps =>
    some
      { name := jsOrStr (capGet caps 1) (chars "anonymous")
        parameters := extractParameters (jsOrStr (capGet caps 2) [])
        returnType := capGet caps 3
        startLine := line
        isAsync :=
          match config.asyncPattern with
          | some t => t trimmedLine
          | none => false }
  | none => none

/-- The backward scan of `analyzeFunctionScope` from a start line down to
line 0, first match wins. -/
def analyzeFunctionScopeAux (config : LanguageConfig) (d : Document) :
    Nat → Option FunctionScope
  | 0 => functionScopeAt config d 0
  | i + 1 =>
    match functionScopeAt config d (i + 1) with
    | some fs => some fs
    | none => analyzeFunctionScopeAux config d i

/-- `analyzeFunctionScope(document, position)`. -/
def analyzeFunctionScope (d : Document) (p : Position) : Option FunctionScope :=
  match languageConfigs d.languageId with
  | none => none
  | some config => analyzeFunctionScopeAux config d p.line

/-- `extractMethods(document, startLine, endLine)`: function-pattern
matches strictly between the two lines. -/
def extractMethods (d : Document) (startLine endLine : Nat) : List (List Char) :=
  match languageConfigs d.languageId with
  | none => []
  | some config =>
    (List.range' (startLine + 1) (endLine - (startLine + 1))).filterMap fun line =>
      match rexec config.functionPattern (jsTrim (chars (lineAt d line))) with
      | some caps => some (jsOrStr (capGet caps 1) (chars "anonymous"))
      | none => none

/-- `extractProperties(document, startLine, endLine)` (a `this.` match has
no group 1, where the JavaScript code would push `undefined`; that absent
group is embedded as the empty name). -/
def extractProperties (d : Document) (startLine endLine : Nat) : List (List Char) :=
  match languageConfigs d.languageId with
  | none => []
  | some config =>
    match config.propertyPattern with
    | none => []
    | some pp =>
      (List.range' (startLine + 1) (endLine - (startLine + 1))).filterMap fun line =>
        match rexec pp (jsTrim (chars (lineAt d line))) with
        | some caps => some ((capGet caps 1).getD [])
        | none => none

/-- The body of the backward scan of `analyzeClassScope` at one line. -/
def classScopeAt (config : LanguageConfig) (d : Document) (posLine line : Nat) :
    Option ClassScope :=
  let trimmedLine := jsTrim (chars (lineAt d line))
  match rexec config.classPattern trimmedLine with
  | some caps =>
    some
      { name := (capGet caps 1).getD []
        extendsClass := capGet caps 2
        startLine := line
        methods := extractMethods d line posLine
        properties := extractProperties d line posLine }
  | none => none

/-- The backward scan of `analyzeClassScope`. -/
def analyzeClassScopeAux (config : LanguageConfig) (d : Document) (posLine : Nat) :
    Nat → Option ClassScope
  | 0 => classScopeAt config d posLine 0
  | i + 1 =>
    match classScopeAt config d posLine (i + 1) with
    | some cs => some cs
    | none => analyzeClassScopeAux config d posLine i

/-- `analyzeClassScope(document, position)`. -/
def analyzeClassScope (d : Document) (p : Position) : Option ClassScope :=
  match languageConfigs d.languageId with
  | none => none
  | some config => analyzeClassScopeAux config d p.line p.line

/-- `extractImportStatements(document)`: every trimmed line of the whole
document that matches the import pattern, in document order. -/
def extractImportStatements (d : Document) : List (List Char) :=
  match languageConfigs d.languageId with
  | none => []
  | some config =>
    ((List.range (lineCount d)).map fun line => jsTrim (chars (lineAt d line))).filter
      fun t => (rexec config.importPattern t).isSome

/-- The variable-pattern check of `extractVariables` at one scanned line. -/
def variablesAt (config : LanguageConfig) (d : Document) (posLine line : Nat) :
    List VariableInfo :=
  match rexec config.variablePattern (jsTrim (chars (lineAt d line))) with
  | some caps =>
    [{ name := (capGet caps 1).getD []
       type := capGet caps 2
       value := capGet caps 3
       line := line
       scope := if line = posLine then VarScope.localScope else VarScope.globalScope }]
  | none => []

/-- The backward scan of `extractVariables` (most recent declaration
first, no de-duplication). -/
def extractVariablesAux (config : LanguageConfig) (d : Document) (posLine : Nat) :
    Nat → List VariableInfo
  | 0 => variablesAt config d posLine 0
  | i + 1 => variablesAt config d posLine (i + 1) ++ extractVariablesAux config d posLine i

/-- `extractVariables(document, position)`. -/
def extractVariables (d : Document) (p : Position) : List VariableInfo :=
  match languageConfigs d.languageId with
  | none => []
  | some config => extractVariablesAux config d p.line p.line

/-- `determineCodeType(line, language, functionScope, classScope)`:
first-matching-pattern-wins classification of the trimmed line. -/
def determineCodeType (line : String) (language : String)
    (functionScope : Option FunctionScope) (classScope : Option ClassScope) : CodeType :=
  let trimmedLine := jsTrim (chars line)
  match languageConfigs language with
  | none => CodeType.general
  | some config =>
    if rtest config.functionPattern trimmedLine then CodeType.function_declaration
    else if rtest config.classPattern trimmedLine then CodeType.class_declaration
    else if rtest config.importPattern trimmedLine then CodeType.import_statement
    else if rtest config.variablePattern trimmedLine then CodeType.variable_declaration
    else if rtest config.commentPattern trimmedLine then CodeType.comment
    else if rtest config.stringPattern trimmedLine then CodeType.string_literal
    else if rtest config.conditionalPattern trimmedLine then CodeType.conditional_statement
    else if rtest config.loopPattern trimmedLine then CodeType.loop_statement
    else if rtest config.returnPattern trimmedLine then CodeType.return_statement
    else if rtest config.tryCatchPattern trimmedLine then CodeType.try_catch
    else if trimmedLine.contains '(' && trimmedLine.contains ')' then CodeType.function_call
    else CodeType.general

/-- `getIndentation(line)`: the leading whitespace run (`/^(\s*)/`). -/
def getIndentation (line : String) : List Char :=
  (chars line).takeWhile wsChar

/-- `getSurroundingLines(document, position)`: up to 10 lines before and
10 lines after the cursor, clamped to the document. -/
def getSurroundingLines (d : Document) (p : Position) : List String × List String :=
  let contextSize := 10
  let startLine := p.line - contextSize
  let endLine := min (lineCount d - 1) (p.line + contextSize)
  ((List.range' startLine (p.line - startLine)).map fun i => lineAt d i,
   (List.range' (p.line + 1) (endLine + 1 - (p.line + 1))).map fun i => lineAt d i)

/-- `analyzeContext(document, position)`. -/
def analyzeContext (d : Document) (p : Position) : CodeContext :=
  let language := d.languageId
  let currentLine := lineAt d p.line
  let currentLinePrefix := currentLine.take p.character
  let sur := getSurroundingLines d p
  let functionScope := analyzeFunctionScope d p
  let classScope := analyzeClassScope d p
  let importStatements := extractImportStatements d
  let variableList := extractVariables d p
  let codeType := determineCodeType currentLinePrefix language functionScope classScope
  let indentation := getIndentation currentLine
  { language := language
    currentLine := currentLinePrefix
    previousLines := sur.1
    nextLines := sur.2
    functionScope := functionScope
    classScope := classScope
    importStatements := importStatements
    variablesInfo := variableList
    codeType := codeType
    indentation := indentation }

/-! ### Token counter (`tokenCounter.ts`) -/

/-- `TokenStats` (`lastReset` is the `Date` timestamp as a number). -/
structure TokenStats where
  inputTokens : Nat
  outputTokens : Nat
  totalTokens : Nat
  requestCount : Nat
  lastReset : Nat
deriving DecidableEq, Repr

/-- `TokenCounter.addTokens(inputTokens, outputTokens)` (the persistence
side effect of `saveStats` is external state, not modelled). -/
def addTokens (inputTokens outputTokens : Nat) (stats : TokenStats) : TokenStats :=
  { stats with
    inputTokens := stats.inputTokens + inputTokens
    outputTokens := stats.outputTokens + outputTokens
    totalTokens := stats.totalTokens + (inputTokens + outputTokens)
    requestCount := stats.requestCount + 1 }

/-- `TokenCounter.resetStats()` at clock value `now`. -/
def resetStats (now : Nat) : TokenStats :=
  { inputTokens := 0
    outputTokens := 0
    totalTokens := 0
    requestCount := 0
    lastReset := now }

/-- One public mutating operation of `TokenCounter`. -/
inductive TokenOp where
  | add (inputTokens outputTokens : Nat)
  | reset (now : Nat)
deriving DecidableEq, Repr

/-- Apply one `TokenCounter` operation. -/
def applyTokenOp (stats : TokenStats) : TokenOp → TokenStats
  | TokenOp.add i o => addTokens i o stats
  | TokenOp.reset now => resetStats now

/-! ### Configuration manager (`configManager.ts`, `validateConfig`) -/

/-- The errors `validateConfig` records for the `delay` setting: a value
outside 100–5000 ms is rejected (the `typeof` check cannot fail on a
numeric embedding). -/
def validateConfigDelayErrors (delay : Nat) : List String :=
  if delay < 100 || delay > 5000 then ["延迟时间必须在100-5000ms之间"] else []

/-- Whether `validateConfig` accepts a `delay` value. -/
def validateDelayOk (delay : Nat) : Bool :=
  (validateConfigDelayErrors delay).isEmpty

/-! ### Completion provider pipeline (`completionProvider.ts`) -/

/-- `CACHE_DURATION = 30000` (30-second cache). -/
def CACHE_DURATION : Nat := 30000

/-- `DEBOUNCE_DELAY = 500` (500 ms debounce). -/
def DEBOUNCE_DELAY : Nat := 500

/-- A `CompletionCache` entry: `{ text, timestamp, context }`. -/
structure CacheEntry where
  text : String
  timestamp : Nat
  context : String
deriving DecidableEq, Repr

/-- `CompletionRequest` as built by `buildCompletionRequest` (its optional
`context` field is always set there). -/
structure CompletionRequest where
  prompt : String
  language : String
  context : String
deriving DecidableEq, Repr

/-- `CompletionResponse` from the backend `AIService`. -/
structure CompletionResponse where
  text : String
  inputTokens : Option Nat := none
  outputTokens : Option Nat := none
  success : Bool
  error : Option String := none
deriving DecidableEq, Repr

/-- JavaScript truthiness of an optional numeric field
(`undefined` and `0` are falsy). -/
def truthy (o : Option Nat) : Bool :=
  match o with
  | some n => !(n == 0)
  | none => false

/-- The value `getContext` returns: lines before, lines after, and the
joined full context. -/
structure ContextInfo where
  before : List String
  after : List String
  fullContext : String
deriving DecidableEq, Repr

/-- An association-list map (`Map.get`). -/
def mapGet {α : Type} (m : List (String × α)) (k : String) : Option α :=
  (m.find? fun e => e.1 == k).map fun e => e.2

/-- An association-list map (`Map.set`: replace any entry under the key). -/
def mapSet {α : Type} (m : List (String × α)) (k : String) (v : α) : List (String × α) :=
  (k, v) :: m.filter fun e => !(e.1 == k)

/-- An association-list map (`Map.delete`). -/
def mapDel {α : Type} (m : List (String × α)) (k : String) : List (String × α) :=
  m.filter fun e => !(e.1 == k)

/-- `buildCacheKey(document, position)`:
`fsPath:line:character:<prefix of the current line up to the cursor>`. -/
def buildCacheKey (d : Document) (p : Position) : String :=
  let lineText := (lineAt d p.line).take p.character
  d.fsPath ++ ":" ++ toString p.line ++ ":" ++ toString p.character ++ ":" ++ lineText

/-- `getContext(document, position)` of the provider: up to 10 raw lines on
each side, and all of them joined with the current line by newlines. -/
def getContext (d : Document) (p : Position) : ContextInfo :=
  let contextLines := 10
  let beforeLines := (List.range' (p.line - contextLines) (p.line - (p.line - contextLines))).map
    fun i => lineAt d i
  let afterLines :=
    (List.range' (p.line + 1) (min (lineCount d) (p.line + contextLines + 1) - (p.line + 1))).map
      fun i => lineAt d i
  { before := beforeLines
    after := afterLines
    fullContext := String.intercalate "\n" (beforeLines ++ [lineAt d p.line] ++ afterLines) }

/-- The provider's own `^(function|def|func|public|private|protected)\s+\w+\s*\([^)]*\)\s*(?:\{|\:|where)`
(the capture group is never read, so it is translated without one). -/
def providerFunctionStartPattern : RegexM :=
  pseq (palt (plit (chars "function"))
        (palt (plit (chars "def"))
          (palt (plit (chars "func"))
            (palt (plit (chars "public"))
              (palt (plit (chars "private")) (plit (chars "protected")))))))
    (pseq sPlus
      (pseq wPlus
        (pseq sStar
          (pseq (plit (chars "("))
            (pseq (pstar fun c => !(c == ')'))
              (pseq (plit (chars ")"))
                (pseq sStar
                  (palt (pcls fun c => c == '{')
                    (palt (plit (chars ":")) (plit (chars "where")))))))))))

/-- The provider's `^(class|struct|interface)\s+\w+`. -/
def providerClassStartPattern : RegexM :=
  pseq (palt (plit (chars "class")) (palt (plit (chars "struct")) (plit (chars "interface"))))
    (pseq sPlus wPlus)

/-- The provider's `^(if|else if|elif|when)\s*\(.*\)\s*\{?`. -/
def providerIfPattern : RegexM :=
  pseq (palt (plit (chars "if"))
        (palt (plit (chars "else if")) (palt (plit (chars "elif")) (plit (chars "when")))))
    (pseq sStar
      (pseq (plit (chars "("))
        (pseq (pstar dotChar)
          (pseq (plit (chars ")")) (pseq sStar (popt (pcls fun c => c == '{')))))))

/-- The provider's `^(for|while|do)\s*\(.*\)\s*\{?`. -/
def providerLoopPattern : RegexM :=
  pseq (palt (plit (chars "for")) (palt (plit (chars "while")) (plit (chars "do"))))
    (pseq sStar
      (pseq (plit (chars "("))
        (pseq (pstar dotChar)
          (pseq (plit (chars ")")) (pseq sStar (popt (pcls fun c => c == '{')))))))

/-- The provider's `^(const|let|var|private|public|protected)\s+\w+`. -/
def providerVariablePattern : RegexM :=
  pseq (palt (plit (chars "const"))
        (palt (plit (chars "let"))
          (palt (plit (chars "var"))
            (palt (plit (chars "private"))
              (palt (plit (chars "public")) (plit (chars "protected")))))))
    (pseq sPlus wPlus)

/-- The provider's `^(import|include|require|using)\s+`. -/
def providerImportPattern : RegexM :=
  pseq (palt (plit (chars "import"))
        (palt (plit (chars "include")) (palt (plit (chars "require")) (plit (chars "using")))))
    sPlus

/-- Whether `t` occurs contiguously anywhere in the input (an unanchored
literal search). -/
def containsSeq (t : List Char) : List Char → Bool
  | [] => t.isPrefixOf []
  | x :: xs => t.isPrefixOf (x :: xs) || containsSeq t xs

/-- The provider's comment test `/^\/\*|\/\/|#/`: the `^` anchors only the
first alternative, so `//` and `#` match anywhere in the line. -/
def providerCommentTest (l : List Char) : Bool :=
  rtest (plit (chars "/*")) l || containsSeq (chars "//") l || l.contains '#'

/-- `analyzeLineType(line)` of the provider. -/
def analyzeLineType (line : String) : String :=
  let trimmedLine := jsTrim (chars line)
  if rtest providerFunctionStartPattern trimmedLine then "function_start"
  else if rtest providerClassStartPattern trimmedLine then "class_start"
  else if rtest providerIfPattern trimmedLine then "if_statement"
  else if rtest providerLoopPattern trimmedLine then "loop_start"
  else if rtest providerVariablePattern trimmedLine then "variable_declaration"
  else if rtest providerImportPattern trimmedLine then "import_statement"
  else if providerCommentTest trimmedLine then "comment"
  else "general"

/-- `buildPrompt(currentLine, context, position)`: every branch of the
source's `switch` returns the current line. -/
def buildPrompt (currentLine : String) (context : ContextInfo) (position : Position) : String :=
  match analyzeLineType currentLine with
  | "function_start" => currentLine
  | "class_start" => currentLine
  | "if_statement" => currentLine
  | "loop_start" => currentLine
  | "variable_declaration" => currentLine
  | "import_statement" => currentLine
  | "comment" => currentLine
  | _ => currentLine

/-- `buildCompletionRequest(document, position)`. -/
def buildCompletionRequest (d : Document) (p : Position) : CompletionRequest :=
  let lineText := lineAt d p.line
  let currentLinePrefix := lineText.take p.character
  let context := getContext d p
  let language := d.languageId
  let prompt := buildPrompt currentLinePrefix context p
  { prompt := prompt, language := language, context := context.fullContext }

/-- `cleanCache()` at clock value `now`: delete every entry whose age
exceeds `CACHE_DURATION`. -/
def cleanCache (now : Nat) (cache : List (String × CacheEntry)) : List (String × CacheEntry) :=
  cache.filter fun e => !(decide (now - e.2.timestamp > CACHE_DURATION))

/-- The data a scheduled `setTimeout` callback has captured: the promise
to resolve (identified by the request index), the document and position of
its own request, and the delay it was scheduled with. -/
structure PendingTimer where
  idx : Nat
  doc : Document
  pos : Position
  delay : Nat
deriving DecidableEq, Repr

/-- The observable state of the provider: the suggestion cache and the
debounce map (the two mutable fields of `AICompletionProvider`), plus the
observation log — which promises have settled and with what, which
backend calls and token-sink calls were made, which timers were cancelled
by `clearTimeout` — and a fresh-index counter for arriving requests. -/
structure ProviderState where
  cache : List (String × CacheEntry)
  debounceMap : List (String × PendingTimer)
  resolved : List (Nat × List String)
  tokenCalls : List (Nat × Nat)
  calls : List CompletionRequest
  cancelled : List Nat
  nextIdx : Nat
deriving DecidableEq, Repr

/-- The provider before any request: empty cache, empty debounce map. -/
def initState : ProviderState :=
  { cache := [], debounceMap := [], resolved := [], tokenCalls := [], calls := [],
    cancelled := [], nextIdx := 0 }

/-- Lines 95–150 of `getCompletionSuggestions` on a cache miss: clear any
pending timer for the key (recording the cancellation), then schedule a
new timer with `DEBOUNCE_DELAY` capturing this request. -/
def schedulePending (cacheKey : String) (d : Document) (p : Position) (idx : Nat)
    (s : ProviderState) : ProviderState :=
  let cancelledNow :=
    match mapGet s.debounceMap cacheKey with
    | some t => [t.idx]
    | none => []
  { s with
    cancelled := s.cancelled ++ cancelledNow
    debounceMap := mapSet s.debounceMap cacheKey
      ({ idx := idx, doc := d, pos := p, delay := DEBOUNCE_DELAY }) }

/-- A call of `getCompletionSuggestions(document, position, token)` at
clock value `now`: the synchronous part — cache lookup (lines 87–93),
then debounce-and-schedule (lines 95–150).  The arriving request receives
the fresh index `s.nextIdx`; a live cache hit settles it immediately with
the cached text. -/
def arriveStep (now : Nat) (d : Document) (p : Position) (s : ProviderState) : ProviderState :=
  let cacheKey := buildCacheKey d p
  let idx := s.nextIdx
  let s0 := { s with nextIdx := idx + 1 }
  match mapGet s0.cache cacheKey with
  | some cached =>
    if now - cached.timestamp < CACHE_DURATION then
      { s0 with resolved := s0.resolved ++ [(idx, [cached.text])] }
    else schedulePending cacheKey d p idx s0
  | none => schedulePending cacheKey d p idx s0

/-- The `setTimeout` callback (lines 101–147) for `cacheKey`, run when the
timer fires; a cleared timer is no longer in the debounce map and firing
it is a no-op.  `cancelledAtFire` is the reading of
`token.isCancellationRequested` at line 104; `cancelledAtResponse` is the
signal's state when the backend response arrives — the source never reads
it after the `await`, so it is an unused oracle input.  `response` is the
backend's answer and `now` the clock when it arrives. -/
def fireStep (cacheKey : String) (cancelledAtFire cancelledAtResponse : Bool)
    (response : CompletionResponse) (now : Nat) (s : ProviderState) : ProviderState :=
  match mapGet s.debounceMap cacheKey with
  | none => s
  | some t =>
    if cancelledAtFire then
      { s with
        resolved := s.resolved ++ [(t.idx, [])]
        debounceMap := mapDel s.debounceMap cacheKey }
    else
      let request := buildCompletionRequest t.doc t.pos
      if jsTrimStr request.prompt = "" then
        { s with
          resolved := s.resolved ++ [(t.idx, [])]
          debounceMap := mapDel s.debounceMap cacheKey }
      else
        let s1 := { s with calls := s.calls ++ [request] }
        if response.success && !(jsTrimStr response.text = "") then
          let s2 :=
            if truthy response.inputTokens && truthy response.outputTokens then
              { s1 with tokenCalls := s1.tokenCalls ++
                [(response.inputTokens.getD 0, response.outputTokens.getD 0)] }
            else s1
          let entry : CacheEntry :=
            { text := response.text, timestamp := now, context := request.context }
          let s3 := { s2 with cache := mapSet s2.cache cacheKey entry }
          let s4 := { s3 with cache := cleanCache now s3.cache }
          { s4 with
            resolved := s4.resolved ++ [(t.idx, [response.text])]
            debounceMap := mapDel s4.debounceMap cacheKey }
        else
          { s1 with
            resolved := s1.resolved ++ [(t.idx, [])]
            debounceMap := mapDel s1.debounceMap cacheKey }

/-- An event of the single-threaded runtime: a request arriving, or a
scheduled timer for a key firing with its oracle inputs. -/
inductive PEvent where
  | arrive (now : Nat) (doc : Document) (pos : Position)
  | fire (key : String) (cancelledAtFire cancelledAtResponse : Bool)
      (response : CompletionResponse) (now : Nat)
deriving Repr

/-- One event step. -/
def pstep (s : ProviderState) : PEvent → ProviderState
  | PEvent.arrive now d p => arriveStep now d p s
  | PEvent.fire k cf cr resp now => fireStep k cf cr resp now s

/-- Run a sequence of events. -/
def runEvents (evs : List PEvent) (s : ProviderState) : ProviderState :=
  evs.foldl pstep s

/-- The indices of requests whose promise has settled. -/
def resolvedIdxs (s : ProviderState) : List Nat :=
  s.resolved.map fun e => e.1

/-- The indices captured by timers still pending in the debounce map. -/
def pendingIdxs (s : ProviderState) : List Nat :=
  s.debounceMap.map fun e => e.2.idx

/-- A request that has been superseded: its timer was cleared (it is no
longer pending), its promise has not settled, and its index is stale. -/
def superseded (s : ProviderState) (i : Nat) : Prop :=
  i ∉ pendingIdxs s ∧ i ∉ resolvedIdxs s ∧ i < s.nextIdx

/-- The promise of request `i` never settles, whatever events follow. -/
def neverSettles (s : ProviderState) (i : Nat) : Prop :=
  ∀ evs : List PEvent, i ∉ resolvedIdxs (runEvents evs s)

/-! ### Concrete scenario data used by witnesses and counterexamples -/

/-- A one-line Python document, the request target of the concrete
scenarios. -/
def sampleDoc : Document :=
  { fsPath := "a.py", languageId := "python", lines := ["x = 1"] }

/-- The cursor at the end of that line. -/
def samplePos : Position :=
  { line := 0, character := 5 }

/-- The cache key of that request. -/
def sampleKey : String :=
  buildCacheKey sampleDoc samplePos

/-- A successful backend response with both token counts. -/
def sampleResp : CompletionResponse :=
  { text := "sugg", inputTokens := some 3, outputTokens := some 5, success := true }

/-- A successful backend response whose input token count is absent. -/
def sampleRespNoCount : CompletionResponse :=
  { text := "sugg", inputTokens := none, outputTokens := some 5, success := true }

/-- A provider state with a cache entry, written at time 0, for the sample
request. -/
def seededState : ProviderState :=
  { initState with cache := [(sampleKey, { text := "cached", timestamp := 0, context := "ctx" })] }

/-- A provider state in which the sample request (index 0) has been
scheduled and its timer is pending. -/
def scheduledState : ProviderState :=
  runEvents [PEvent.arrive 0 sampleDoc samplePos] initState

/-- A provider state in which the sample request arrived twice: request 0
was superseded by request 1 for the same key. -/
def twoArrivalState : ProviderState :=
  runEvents [PEvent.arrive 0 sampleDoc samplePos, PEvent.arrive 1 sampleDoc samplePos] initState

/-- The Python document of the end-to-end analyzer scenario. -/
def pyScenarioDoc : Document :=
  { fsPath := "t.py", languageId := "python",
    lines := ["def add(a, b):", "    total = a + b", "    "] }

/-- One outcome of a matcher being the preferred one: it heads the
outcome list. -/
def firstRes (p : RegexM) (s : List Char) (c : Caps) (r : List Char × Caps) : Prop :=
  ∃ ts, p s c = r :: ts

/-! ### Helper lemmas -/

/-- `Map.set` then `Map.get` at the same key. -/
theorem mapGet_mapSet_self {α : Type} (m : List (String × α)) (k : String) (v : α) :
    mapGet (mapSet m k v) k = some v := by
  simp [mapGet, mapSet, List.find?]

/-- Unfolding one event of a run. -/
theorem runEvents_cons (e : PEvent) (evs : List PEvent) (s : ProviderState) :
    runEvents (e :: evs) s = runEvents evs (pstep s e) := rfl

/-- Splitting a run. -/
theorem runEvents_append (l₁ l₂ : List PEvent) (s : ProviderState) :
    runEvents (l₁ ++ l₂) s = runEvents l₂ (runEvents l₁ s) := by
  simp [runEvents, List.foldl_append]

/-! ### Claims C8, C10, C3, C4 -/

/-- C8: for the Python document `["def add(a, b):", "    total = a + b",
"    "]` with the cursor at line 2, column 4, `analyzeContext` returns an
enclosing function scope named `add` with parameters `a` and `b`, line
kind `general`, and four spaces of indentation. -/
theorem c8_analyzer_end_to_end :
    (analyzeContext pyScenarioDoc ⟨2, 4⟩).functionScope =
      some { name := chars "add", parameters := [chars "a", chars "b"],
             returnType := none, startLine := 0, isAsync := false }
    ∧ (analyzeContext pyScenarioDoc ⟨2, 4⟩).codeType = CodeType.general
    ∧ (analyzeContext pyScenarioDoc ⟨2, 4⟩).indentation = chars "    " := by
  refine ⟨by decide, by decide, by decide⟩

/-- C10: from the reset state, every sequence of `addTokens`/`resetStats`
operations keeps `totalTokens = inputTokens + outputTokens`; `addTokens`
increments `requestCount` by exactly one; `resetStats` zeroes all four
counters. -/
theorem c10_token_counter_invariant :
    (∀ (ops : List TokenOp) (now : Nat),
        (ops.foldl applyTokenOp (resetStats now)).totalTokens =
          (ops.foldl applyTokenOp (resetStats now)).inputTokens +
            (ops.foldl applyTokenOp (resetStats now)).outputTokens)
    ∧ (∀ (i o : Nat) (s : TokenStats), (addTokens i o s).requestCount = s.requestCount + 1)
    ∧ (∀ now : Nat,
        (resetStats now).inputTokens = 0 ∧ (resetStats now).outputTokens = 0 ∧
          (resetStats now).totalTokens = 0 ∧ (resetStats now).requestCount = 0) := by
  refine ⟨?_, ?_, ?_⟩
  · have key : ∀ (ops : List TokenOp) (s : TokenStats),
        s.totalTokens = s.inputTokens + s.outputTokens →
        (ops.foldl applyTokenOp s).totalTokens =
          (ops.foldl applyTokenOp s).inputTokens + (ops.foldl applyTokenOp s).outputTokens := by
      intro ops
      induction ops with
      | nil => intro s hs; simpa using hs
      | cons op ops ih =>
        intro s hs
        cases op with
        | add i o =>
          apply ih
          simp [applyTokenOp, addTokens]
          omega
        | reset now => apply ih; simp [applyTokenOp, resetStats]
    intro ops now
    exact key ops (resetStats now) (by simp [resetStats])
  · intro i o s; simp [addTokens]
  · intro now; simp [resetStats]

/-- C3: the configuration flag `cacheEnabled` has no effect on the
pipeline — `getCompletionSuggestions` never reads it, so whatever its
value, a live cache entry is served (with no backend call) and a
successful backend result is written to the cache. -/
theorem c3_cache_enabled_ignored :
    ∀ (cacheEnabled : Bool),
      (runEvents [PEvent.arrive 1000 sampleDoc samplePos] seededState).resolved =
        [(0, ["cached"])]
      ∧ (runEvents [PEvent.arrive 1000 sampleDoc samplePos] seededState).calls = []
      ∧ (runEvents [PEvent.arrive 0 sampleDoc samplePos,
            PEvent.fire sampleKey false false sampleResp 10] initState).cache =
          [(sampleKey, { text := "sugg", timestamp := 10, context := "x = 1" })] := by
  intro _
  refine ⟨by decide, by decide, by decide⟩

/-- C4: the delay of every scheduled debounce timer is the constant
`DEBOUNCE_DELAY = 500`, whatever `delay` value the configuration holds —
including the value 1000 ms, which `validateConfig` accepts as within
100–5000 ms. -/
theorem c4_debounce_delay_fixed :
    ∀ (configuredDelay : Nat) (k : String) (d : Document) (p : Position) (i : Nat)
      (s : ProviderState),
      mapGet (schedulePending k d p i s).debounceMap k =
        some { idx := i, doc := d, pos := p, delay := DEBOUNCE_DELAY }
      ∧ DEBOUNCE_DELAY = 500
      ∧ validateDelayOk 1000 = true
      ∧ ¬((1000 : Nat) = DEBOUNCE_DELAY) := by
  intro _ k d p i s
  refine ⟨?_, rfl, by decide, by decide⟩
  simp [schedulePending, mapGet_mapSet_self]

/-! ### Claim C2 -/

/-- C2 counterexample: the signal is set when the backend response arrives
(`cancelledAtResponse = true`), yet the successful result is cached, the
token sink is invoked, and the promise resolves with the suggestion — the
pipeline does not drop it. -/
theorem c2_post_issue_cancellation_cex :
    sampleResp.success = true
    ∧ (runEvents [PEvent.arrive 0 sampleDoc samplePos,
        PEvent.fire sampleKey false true sampleResp 10] initState).resolved = [(0, ["sugg"])]
    ∧ (runEvents [PEvent.arrive 0 sampleDoc samplePos,
        PEvent.fire sampleKey false true sampleResp 10] initState).cache =
      [(sampleKey, { text := "sugg", timestamp := 10, context := "x = 1" })]
    ∧ (runEvents [PEvent.arrive 0 sampleDoc samplePos,
        PEvent.fire sampleKey false true sampleResp 10] initState).tokenCalls = [(3, 5)] := by
  refine ⟨rfl, by decide, by decide, by decide⟩

/-- C2 (amended): the cancellation signal is read only when the scheduled
execution fires, before the backend call is issued — if it is set then,
the pipeline resolves empty with no backend call and no cache or sink
mutation; the signal's state when the response arrives is never read, so
the fired execution behaves identically whether or not the signal was set
after the call was issued. -/
theorem c2_cancellation_checked_at_fire_only :
    (∀ (k : String) (cf : Bool) (resp : CompletionResponse) (now : Nat) (s : ProviderState),
        fireStep k cf true resp now s = fireStep k cf false resp now s)
    ∧ (∀ (k : String) (resp : CompletionResponse) (now : Nat) (s : ProviderState)
        (t : PendingTimer),
        mapGet s.debounceMap k = some t →
        fireStep k true true resp now s =
          { s with
            resolved := s.resolved ++ [(t.idx, [])]
            debounceMap := mapDel s.debounceMap k }) := by
  constructor
  · intro k cf resp now s; rfl
  · intro k resp now s t ht
    simp [fireStep, ht]

/-- Witness for `c2_cancellation_checked_at_fire_only` at the scheduled
sample request. -/
theorem c2_cancellation_checked_at_fire_only_witness :
    fireStep sampleKey true true sampleResp 10 scheduledState =
      { scheduledState with
        resolved := scheduledState.resolved ++ [(0, [])]
        debounceMap := mapDel scheduledState.debounceMap sampleKey } :=
  c2_cancellation_checked_at_fire_only.2 sampleKey sampleResp 10 scheduledState
    { idx := 0, doc := sampleDoc, pos := samplePos, delay := 500 } (by decide)

/-! ### Claim C7 -/

/-- C7 counterexample: a successful backend response with non-empty text
but an absent input token count does not invoke the token-usage sink at
all, although the claim demands one invocation per successful response. -/
theorem c7_token_usage_cex :
    sampleRespNoCount.success = true
    ∧ ¬(jsTrimStr sampleRespNoCount.text = "")
    ∧ (runEvents [PEvent.arrive 0 sampleDoc samplePos,
        PEvent.fire sampleKey false false sampleRespNoCount 10] initState).resolved =
      [(0, ["sugg"])]
    ∧ (runEvents [PEvent.arrive 0 sampleDoc samplePos,
        PEvent.fire sampleKey false false sampleRespNoCount 10] initState).tokenCalls = [] := by
  refine ⟨rfl, by decide, by decide, by decide⟩

/-- C7 (amended): the token-usage sink is invoked exactly once, with the
response's counts, for a successful backend response whose text is not
whitespace-only and whose input and output token counts are both present
and nonzero; it is not invoked when either count is absent or zero, and
never on a cache hit. -/
theorem c7_token_usage_accounting :
    (∀ (s : ProviderState) (k : String) (t : PendingTimer) (resp : CompletionResponse)
        (now i o : Nat),
        mapGet s.debounceMap k = some t →
        ¬(jsTrimStr (buildCompletionRequest t.doc t.pos).prompt = "") →
        resp.success = true →
        ¬(jsTrimStr resp.text = "") →
        resp.inputTokens = some i → ¬(i = 0) →
        resp.outputTokens = some o → ¬(o = 0) →
        (fireStep k false false resp now s).tokenCalls = s.tokenCalls ++ [(i, o)])
    ∧ (∀ (now : Nat) (d : Document) (p : Position) (s : ProviderState) (e : CacheEntry),
        mapGet s.cache (buildCacheKey d p) = some e →
        now - e.timestamp < CACHE_DURATION →
        (arriveStep now d p s).tokenCalls = s.tokenCalls)
    ∧ (∀ (s : ProviderState) (k : String) (cf cr : Bool) (resp : CompletionResponse)
        (now : Nat),
        truthy resp.inputTokens = false ∨ truthy resp.outputTokens = false →
        (fireStep k cf cr resp now s).tokenCalls = s.tokenCalls) := by
  refine ⟨?_, ?_, ?_⟩
  · intro s k t resp now i o ht hp hs htx hi hi0 ho ho0
    simp [fireStep, ht, hp, hs, htx, truthy, hi, ho, hi0, ho0]
  · intro now d p s e he hf
    simp [arriveStep, he, hf]
  · intro s k cf cr resp now h
    have htt : (truthy resp.inputTokens && truthy resp.outputTokens) = false := by
      rcases h with h | h <;> simp [h]
    cases hm : mapGet s.debounceMap k with
    | none => simp [fireStep, hm]
    | some t =>
      cases cf with
      | true => simp [fireStep, hm]
      | false =>
        by_cases hp : jsTrimStr (buildCompletionRequest t.doc t.pos).prompt = ""
        · simp [fireStep, hm, hp]
        · by_cases hsx : (resp.success && !(decide (jsTrimStr resp.text = ""))) = true
          · simp [fireStep, hm, hp, hsx, htt]
          · simp [fireStep, hm, hp, hsx]

/-- Witness for `c7_token_usage_accounting`: the sink fires once with
(3, 5) for the full response, stays silent on a cache hit, and stays
silent when the input count is absent. -/
theorem c7_token_usage_accounting_witness :
    (fireStep sampleKey false false sampleResp 10 scheduledState).tokenCalls =
      scheduledState.tokenCalls ++ [(3, 5)]
    ∧ (arriveStep 1000 sampleDoc samplePos seededState).tokenCalls = seededState.tokenCalls
    ∧ (fireStep sampleKey false false sampleRespNoCount 10 scheduledState).tokenCalls =
      scheduledState.tokenCalls :=
  ⟨c7_token_usage_accounting.1 scheduledState sampleKey
      { idx := 0, doc := sampleDoc, pos := samplePos, delay := 500 } sampleResp 10 3 5
      (by decide) (by decide) rfl (by decide) rfl (by decide) rfl (by decide),
   c7_token_usage_accounting.2.1 1000 sampleDoc samplePos seededState
      { text := "cached", timestamp := 0, context := "ctx" } (by decide) (by decide),
   c7_token_usage_accounting.2.2 scheduledState sampleKey false false sampleRespNoCount 10
      (Or.inl (by decide))⟩

/-! ### Claim C6 -/

/-- C6: a cache entry younger than `CACHE_DURATION` is returned verbatim
with no backend call and no scheduling; an entry of age at least
`CACHE_DURATION` is treated as absent and a fresh debounce cycle is
scheduled; a successful write passes the cache through `cleanCache`,
whose output contains exactly the entries of age at most
`CACHE_DURATION`. -/
theorem c6_cache_ttl :
    ∀ (now : Nat) (d : Document) (p : Position) (s : ProviderState) (e : CacheEntry),
      (mapGet s.cache (buildCacheKey d p) = some e →
        now - e.timestamp < CACHE_DURATION →
        arriveStep now d p s =
          { s with
            nextIdx := s.nextIdx + 1
            resolved := s.resolved ++ [(s.nextIdx, [e.text])] })
      ∧ (mapGet s.cache (buildCacheKey d p) = some e →
        CACHE_DURATION ≤ now - e.timestamp →
        arriveStep now d p s =
          schedulePending (buildCacheKey d p) d p s.nextIdx { s with nextIdx := s.nextIdx + 1 })
      ∧ (∀ (k : String) (t : PendingTimer) (resp : CompletionResponse),
          mapGet s.debounceMap k = some t →
          ¬(jsTrimStr (buildCompletionRequest t.doc t.pos).prompt = "") →
          resp.success = true →
          ¬(jsTrimStr resp.text = "") →
          (fireStep k false false resp now s).cache =
            cleanCache now (mapSet s.cache k
              { text := resp.text, timestamp := now,
                context := (buildCompletionRequest t.doc t.pos).context }))
      ∧ (∀ (c : List (String × CacheEntry)) (x : String × CacheEntry),
          (x ∈ cleanCache now c ↔ x ∈ c ∧ now - x.2.timestamp ≤ CACHE_DURATION)) := by
  intro now d p s e
  refine ⟨?_, ?_, ?_, ?_⟩
  · intro he hf
    simp [arriveStep, he, hf]
  · intro he hf
    have hf' : ¬(now - e.timestamp < CACHE_DURATION) := by omega
    simp [arriveStep, he, hf']
  · intro k t resp ht hp hs htx
    simp [fireStep, ht, hp, hs, htx]
    split <;> rfl
  · intro c x
    constructor
    · intro hx
      have := List.mem_filter.mp hx
      refine ⟨this.1, ?_⟩
      have h2 := this.2
      simp at h2
      omega
    · intro hx
      refine List.mem_filter.mpr ⟨hx.1, ?_⟩
      simp
      omega

/-- Witness for `c6_cache_ttl`: the seeded entry (written at time 0) is
served at time 1000 and bypassed at time 40000; the successful fire at
time 10 writes through `cleanCache`; an entry of age 25000 survives a
sweep at time 40000. -/
theorem c6_cache_ttl_witness :
    arriveStep 1000 sampleDoc samplePos seededState =
      { seededState with
        nextIdx := seededState.nextIdx + 1
        resolved := seededState.resolved ++ [(seededState.nextIdx, ["cached"])] }
    ∧ arriveStep 40000 sampleDoc samplePos seededState =
      schedulePending (buildCacheKey sampleDoc samplePos) sampleDoc samplePos
        seededState.nextIdx { seededState with nextIdx := seededState.nextIdx + 1 }
    ∧ (fireStep sampleKey false false sampleResp 10 scheduledState).cache =
      cleanCache 10 (mapSet scheduledState.cache sampleKey
        { text := sampleResp.text, timestamp := 10,
          context := (buildCompletionRequest sampleDoc samplePos).context })
    ∧ ((sampleKey, ({ text := "old", timestamp := 15000, context := "c" } : CacheEntry)) ∈
        cleanCache 40000 [(sampleKey, { text := "old", timestamp := 15000, context := "c" })]
      ↔ (sampleKey, ({ text := "old", timestamp := 15000, context := "c" } : CacheEntry)) ∈
          [(sampleKey, ({ text := "old", timestamp := 15000, context := "c" } : CacheEntry))]
        ∧ 40000 - 15000 ≤ CACHE_DURATION) :=
  ⟨(c6_cache_ttl 1000 sampleDoc samplePos seededState
      { text := "cached", timestamp := 0, context := "ctx" }).1 (by decide) (by decide),
   (c6_cache_ttl 40000 sampleDoc samplePos seededState
      { text := "cached", timestamp := 0, context := "ctx" }).2.1 (by decide) (by decide),
   (c6_cache_ttl 10 sampleDoc samplePos scheduledState
      { text := "cached", timestamp := 0, context := "ctx" }).2.2.1 sampleKey
      { idx := 0, doc := sampleDoc, pos := samplePos, delay := 500 } sampleResp
      (by decide) (by decide) rfl (by decide),
   (c6_cache_ttl 40000 sampleDoc samplePos seededState
      { text := "cached", timestamp := 0, context := "ctx" }).2.2.2
      [(sampleKey, { text := "old", timestamp := 15000, context := "c" })]
      (sampleKey, { text := "old", timestamp := 15000, context := "c" })⟩

/-! ### Claim C1 -/

/-- An arrival whose key misses the cache, into a state whose only pending
timer is under that key: the old timer is cleared and replaced. -/
theorem arrive_miss_state (K : String) (nw : Nat) (dd : Document) (pp : Position)
    (cs : List Nat) (j : Nat) (t : PendingTimer)
    (hb : buildCacheKey dd pp = K) :
    arriveStep nw dd pp ⟨[], [(K, t)], [], [], [], cs, j⟩ =
      ⟨[], [(K, ⟨j, dd, pp, DEBOUNCE_DELAY⟩)], [], [], [], cs ++ [t.idx], j + 1⟩ := by
  simp [arriveStep, schedulePending, mapGet, mapSet, hb, List.find?]

/-- The first arrival from the initial state schedules a timer and cancels
nothing. -/
theorem arrive_first_state (K : String) (nw : Nat) (dd : Document) (pp : Position)
    (hb : buildCacheKey dd pp = K) :
    arriveStep nw dd pp initState =
      ⟨[], [(K, ⟨0, dd, pp, DEBOUNCE_DELAY⟩)], [], [], [], [], 1⟩ := by
  simp [arriveStep, schedulePending, mapGet, mapSet, hb, initState, List.find?]

/-- Running a nonempty block of arrivals for one key over a state whose
only pending timer is under that key: each arrival cancels its
predecessor, and only the last request's timer remains. -/
theorem run_arrivals_key (K : String) (b : Nat × Document × Position) :
    ∀ (L : List (Nat × Document × Position)) (cs : List Nat) (j : Nat) (t : PendingTimer),
      (∀ r ∈ L ++ [b], buildCacheKey r.2.1 r.2.2 = K) →
      runEvents ((L ++ [b]).map fun r => PEvent.arrive r.1 r.2.1 r.2.2)
        ⟨[], [(K, t)], [], [], [], cs, j⟩ =
      ⟨[], [(K, ⟨j + L.length, b.2.1, b.2.2, DEBOUNCE_DELAY⟩)], [], [], [],
        cs ++ t.idx :: List.range' j L.length, j + L.length + 1⟩ := by
  intro L
  induction L with
  | nil =>
    intro cs j t hK
    have hb : buildCacheKey b.2.1 b.2.2 = K := hK b (by simp)
    simp only [List.nil_append, List.map_cons, List.map_nil, runEvents_cons, pstep]
    rw [arrive_miss_state K b.1 b.2.1 b.2.2 cs j t hb]
    simp [runEvents]
  | cons a L ih =>
    intro cs j t hK
    have ha : buildCacheKey a.2.1 a.2.2 = K := hK a (by simp)
    simp only [List.cons_append, List.map_cons, runEvents_cons, pstep]
    rw [arrive_miss_state K a.1 a.2.1 a.2.2 cs j t ha]
    rw [ih (cs ++ [t.idx]) (j + 1) ⟨j, a.2.1, a.2.2, DEBOUNCE_DELAY⟩
      (fun r hr => hK r (by simp at hr ⊢; tauto))]
    have hlen : j + 1 + L.length = j + (L.length + 1) := by omega
    have hrange : List.range' j (L.length + 1) = j :: List.range' (j + 1) L.length :=
      List.range'_succ j (L.length) 1
    simp [hlen, hrange]

/-- Running a nonempty block of arrivals for one key from the initial
state: the first schedules, each later one cancels its predecessor. -/
theorem run_arrivals_from_init (K : String) (L : List (Nat × Document × Position))
    (b : Nat × Document × Position)
    (hK : ∀ r ∈ L ++ [b], buildCacheKey r.2.1 r.2.2 = K) :
    runEvents ((L ++ [b]).map fun r => PEvent.arrive r.1 r.2.1 r.2.2) initState =
      ⟨[], [(K, ⟨L.length, b.2.1, b.2.2, DEBOUNCE_DELAY⟩)], [], [], [],
        List.range L.length, L.length + 1⟩ := by
  cases L with
  | nil =>
    have hb : buildCacheKey b.2.1 b.2.2 = K := hK b (by simp)
    simp only [List.nil_append, List.map_cons, List.map_nil, runEvents_cons, pstep]
    rw [arrive_first_state K b.1 b.2.1 b.2.2 hb]
    simp [runEvents]
  | cons a L =>
    have ha : buildCacheKey a.2.1 a.2.2 = K := hK a (by simp)
    simp only [List.cons_append, List.map_cons, runEvents_cons, pstep]
    rw [arrive_first_state K a.1 a.2.1 a.2.2 ha]
    rw [run_arrivals_key K b L [] 1 ⟨0, a.2.1, a.2.2, DEBOUNCE_DELAY⟩
      (fun r hr => hK r (by simp at hr ⊢; tauto))]
    have h1 : 1 + L.length = L.length + 1 := by omega
    have h2 : List.range (L.length + 1) = 0 :: List.range' 1 L.length := by
      rw [List.range_eq_range', List.range'_succ]
    simp [h1, h2]

/-- A fire whose captured request has a non-whitespace prompt performs
exactly one backend call, built from the captured document and position. -/
theorem fireStep_calls (k : String) (t : PendingTimer) (cr : Bool)
    (resp : CompletionResponse) (now : Nat) (s : ProviderState)
    (ht : mapGet s.debounceMap k = some t)
    (hp : ¬(jsTrimStr (buildCompletionRequest t.doc t.pos).prompt = "")) :
    (fireStep k false cr resp now s).calls = s.calls ++ [buildCompletionRequest t.doc t.pos] := by
  by_cases hsx : (resp.success && !(decide (jsTrimStr resp.text = ""))) = true
  · simp [fireStep, ht, hp, hsx]
    split <;> rfl
  · simp [fireStep, ht, hp, hsx]

/-- C1: when `N ≥ 1` requests for one cache key arrive before any
scheduled execution fires, no backend call happens during the arrivals,
every request but the last has its timer cancelled (in arrival order,
before any execution starts), only the last request's timer remains
pending, and the single fire that follows makes exactly one backend call,
built from the document and cursor position of the last request. -/
theorem c1_debounce_coalescing (K : String) (L : List (Nat × Document × Position))
    (b : Nat × Document × Position)
    (hK : ∀ r ∈ L ++ [b], buildCacheKey r.2.1 r.2.2 = K)
    (resp : CompletionResponse) (cancelAtResp : Bool) (fnow : Nat)
    (hprompt : ¬(jsTrimStr (buildCompletionRequest b.2.1 b.2.2).prompt = "")) :
    runEvents ((L ++ [b]).map fun r => PEvent.arrive r.1 r.2.1 r.2.2) initState =
      ⟨[], [(K, ⟨L.length, b.2.1, b.2.2, DEBOUNCE_DELAY⟩)], [], [], [],
        List.range L.length, L.length + 1⟩
    ∧ (runEvents (((L ++ [b]).map fun r => PEvent.arrive r.1 r.2.1 r.2.2) ++
        [PEvent.fire K false cancelAtResp resp fnow]) initState).calls =
      [buildCompletionRequest b.2.1 b.2.2] := by
  have harr := run_arrivals_from_init K L b hK
  refine ⟨harr, ?_⟩
  rw [runEvents_append, harr]
  have ht : mapGet ([(K, (⟨L.length, b.2.1, b.2.2, DEBOUNCE_DELAY⟩ : PendingTimer))]) K =
      some ⟨L.length, b.2.1, b.2.2, DEBOUNCE_DELAY⟩ := by
    simp [mapGet, List.find?]
  have := fireStep_calls K ⟨L.length, b.2.1, b.2.2, DEBOUNCE_DELAY⟩ cancelAtResp resp fnow
    ⟨[], [(K, ⟨L.length, b.2.1, b.2.2, DEBOUNCE_DELAY⟩)], [], [], [],
      List.range L.length, L.length + 1⟩ ht hprompt
  simpa [runEvents, pstep] using this

/-- Witness for `c1_debounce_coalescing`: two rapid sample requests — the
first is cancelled, the fire makes the one backend call for the second. -/
theorem c1_debounce_coalescing_witness :
    runEvents (([(0, sampleDoc, samplePos), (5, sampleDoc, samplePos)]).map
        fun r => PEvent.arrive r.1 r.2.1 r.2.2) initState =
      ⟨[], [(sampleKey, ⟨1, sampleDoc, samplePos, DEBOUNCE_DELAY⟩)], [], [], [],
        List.range 1, 2⟩
    ∧ (runEvents ((([(0, sampleDoc, samplePos), (5, sampleDoc, samplePos)]).map
          fun r => PEvent.arrive r.1 r.2.1 r.2.2) ++
        [PEvent.fire sampleKey false false sampleResp 10]) initState).calls =
      [buildCompletionRequest sampleDoc samplePos] :=
  c1_debounce_coalescing sampleKey [(0, sampleDoc, samplePos)] (5, sampleDoc, samplePos)
    (by decide) sampleResp false 10 (by decide)

/-! ### Claim C5 -/

/-- Filtering the debounce map introduces no new timer indices. -/
theorem idx_not_mem_filter (m : List (String × PendingTimer)) (q : String × PendingTimer → Bool)
    (i : Nat) (h : i ∉ m.map fun e => e.2.idx) : i ∉ (m.filter q).map fun e => e.2.idx := by
  intro hmem
  apply h
  obtain ⟨e, he, hei⟩ := List.mem_map.mp hmem
  exact List.mem_map.mpr ⟨e, (List.mem_filter.mp he).1, hei⟩

/-- One event preserves supersededness: a cleared, unsettled, stale-index
request stays cleared and unsettled. -/
theorem superseded_pstep (s : ProviderState) (i : Nat) (e : PEvent)
    (h : superseded s i) : superseded (pstep s e) i := by
  obtain ⟨h1, h2, h3⟩ := h
  cases e with
  | arrive now d p =>
    have hsched : superseded (schedulePending (buildCacheKey d p) d p s.nextIdx
        { s with nextIdx := s.nextIdx + 1 }) i := by
      refine ⟨?_, by simpa [resolvedIdxs, schedulePending] using h2, by simp [schedulePending]; omega⟩
      simp only [schedulePending, pendingIdxs, mapSet]
      intro hmem
      simp only [List.map_cons, List.mem_cons] at hmem
      rcases hmem with hmem | hmem
      · omega
      · exact idx_not_mem_filter _ _ i h1 hmem
    cases hm : mapGet s.cache (buildCacheKey d p) with
    | some cached =>
      by_cases hfresh : now - cached.timestamp < CACHE_DURATION
      · refine ⟨by simpa [pendingIdxs, pstep, arriveStep, hm, hfresh] using h1, ?_, ?_⟩
        · simp only [pstep, arriveStep, hm, hfresh, if_pos, resolvedIdxs, List.map_append]
          simp [resolvedIdxs] at h2
          simp [h2]
          omega
        · simp [pstep, arriveStep, hm, hfresh]
          omega
      · simpa [pstep, arriveStep, hm, hfresh] using hsched
    | none => simpa [pstep, arriveStep, hm] using hsched
  | fire k cf crr resp now =>
    cases hm : mapGet s.debounceMap k with
    | none => simpa [pstep, fireStep, hm] using ⟨h1, h2, h3⟩
    | some t =>
      have htmem : t.idx ∈ pendingIdxs s := by
        unfold mapGet at hm
        obtain ⟨en, hfind, het⟩ := Option.map_eq_some'.mp hm
        exact List.mem_map.mpr ⟨en, List.mem_of_find?_eq_some hfind, by rw [het]⟩
      have hne : ¬(i = t.idx) := fun he => h1 (he ▸ htmem)
      have hres : ∀ v : List String,
          i ∉ (s.resolved ++ [(t.idx, v)]).map fun e => e.1 := by
        intro v hmem
        simp only [List.map_append, List.mem_append, List.map_cons, List.map_nil,
          List.mem_cons] at hmem
        rcases hmem with hmem | hmem
        · exact h2 hmem
        · simp at hmem
          exact hne hmem
      have hdel : i ∉ (mapDel s.debounceMap k).map fun e => e.2.idx :=
        idx_not_mem_filter _ _ i h1
      cases cf with
      | true =>
        refine ⟨by simpa [pstep, fireStep, hm, pendingIdxs] using hdel,
          by simpa [pstep, fireStep, hm, resolvedIdxs] using hres [],
          by simpa [pstep, fireStep, hm] using h3⟩
      | false =>
        by_cases hp : jsTrimStr (buildCompletionRequest t.doc t.pos).prompt = ""
        · refine ⟨by simpa [pstep, fireStep, hm, hp, pendingIdxs] using hdel,
            by simpa [pstep, fireStep, hm, hp, resolvedIdxs] using hres [],
            by simpa [pstep, fireStep, hm, hp] using h3⟩
        · by_cases hsx : (resp.success && !(decide (jsTrimStr resp.text = ""))) = true
          · by_cases htk : (truthy resp.inputTokens && truthy resp.outputTokens) = true
            · refine ⟨by simpa [pstep, fireStep, hm, hp, hsx, htk, pendingIdxs] using hdel,
                by simpa [pstep, fireStep, hm, hp, hsx, htk, resolvedIdxs] using hres [resp.text],
                by simpa [pstep, fireStep, hm, hp, hsx, htk] using h3⟩
            · refine ⟨by simpa [pstep, fireStep, hm, hp, hsx, htk, pendingIdxs] using hdel,
                by simpa [pstep, fireStep, hm, hp, hsx, htk, resolvedIdxs] using hres [resp.text],
                by simpa [pstep, fireStep, hm, hp, hsx, htk] using h3⟩
          · refine ⟨by simpa [pstep, fireStep, hm, hp, hsx, pendingIdxs] using hdel,
              by simpa [pstep, fireStep, hm, hp, hsx, resolvedIdxs] using hres [],
              by simpa [pstep, fireStep, hm, hp, hsx] using h3⟩

/-- A whole run preserves supersededness. -/
theorem superseded_runEvents (evs : List PEvent) :
    ∀ (s : ProviderState) (i : Nat), superseded s i → superseded (runEvents evs s) i := by
  induction evs with
  | nil => intro s i h; simpa [runEvents] using h
  | cons e evs ih =>
    intro s i h
    rw [runEvents_cons]
    exact ih (pstep s e) i (superseded_pstep s i e h)

/-- A superseded request's promise never settles. -/
theorem neverSettles_of_superseded {s : ProviderState} {i : Nat}
    (h : superseded s i) : neverSettles s i :=
  fun evs => (superseded_runEvents evs s i h).2.1

/-- Every fire settles exactly the promise its pending timer captured. -/
theorem fireStep_resolves (k : String) (t : PendingTimer) (cf cr : Bool)
    (resp : CompletionResponse) (now : Nat) (s : ProviderState)
    (ht : mapGet s.debounceMap k = some t) :
    resolvedIdxs (fireStep k cf cr resp now s) = resolvedIdxs s ++ [t.idx] := by
  cases cf with
  | true => simp [fireStep, ht, resolvedIdxs]
  | false =>
    by_cases hp : jsTrimStr (buildCompletionRequest t.doc t.pos).prompt = ""
    · simp [fireStep, ht, hp, resolvedIdxs]
    · by_cases hsx : (resp.success && !(decide (jsTrimStr resp.text = ""))) = true
      · by_cases htk : (truthy resp.inputTokens && truthy resp.outputTokens) = true <;>
          simp [fireStep, ht, hp, hsx, htk, resolvedIdxs]
      · simp [fireStep, ht, hp, hsx, resolvedIdxs]

/-- C5 counterexample: after two rapid sample requests for the same key,
request 0 was superseded by request 1, and its promise never settles — no
continuation of the run ever resolves it, so it does not settle promptly
on cancellation either. -/
theorem c5_promise_settlement_cex :
    neverSettles twoArrivalState 0 :=
  neverSettles_of_superseded ⟨by decide, by decide, by decide⟩

/-- C5 (amended): a request's promise settles only when its own scheduled
execution fires — the fire settles exactly the captured request, to the
empty sequence when the signal is set at fire time — but the promise of a
request superseded by a newer request for the same key never settles. -/
theorem c5_promise_settlement (s : ProviderState) (i : Nat) (k : String)
    (t : PendingTimer) (cf cr : Bool) (resp : CompletionResponse) (now : Nat) :
    (superseded s i → neverSettles s i)
    ∧ (mapGet s.debounceMap k = some t →
        resolvedIdxs (fireStep k cf cr resp now s) = resolvedIdxs s ++ [t.idx])
    ∧ (mapGet s.debounceMap k = some t →
        (fireStep k true cr resp now s).resolved = s.resolved ++ [(t.idx, [])]) := by
  refine ⟨fun h => neverSettles_of_superseded h,
    fun ht => fireStep_resolves k t cf cr resp now s ht,
    fun ht => by simp [fireStep, ht]⟩

/-- Witness for `c5_promise_settlement` on the two-arrival state: the
superseded request 0 is not resolved by the following fire, which settles
request 1 (to empty when cancelled at fire time). -/
theorem c5_promise_settlement_witness :
    (0 ∉ resolvedIdxs (runEvents [PEvent.fire sampleKey false false sampleResp 700]
      twoArrivalState))
    ∧ resolvedIdxs (fireStep sampleKey false false sampleResp 700 twoArrivalState) =
      resolvedIdxs twoArrivalState ++ [1]
    ∧ (fireStep sampleKey true false sampleResp 700 twoArrivalState).resolved =
      twoArrivalState.resolved ++ [(1, [])] :=
  ⟨(c5_promise_settlement twoArrivalState 0 sampleKey
      ⟨1, sampleDoc, samplePos, 500⟩ false false sampleResp 700).1
      ⟨by decide, by decide, by decide⟩
      [PEvent.fire sampleKey false false sampleResp 700],
   (c5_promise_settlement twoArrivalState 0 sampleKey
      ⟨1, sampleDoc, samplePos, 500⟩ false false sampleResp 700).2.1 (by decide),
   (c5_promise_settlement twoArrivalState 0 sampleKey
      ⟨1, sampleDoc, samplePos, 500⟩ false false sampleResp 700).2.2 (by decide)⟩

/-! ### Claim C9 -/

/-- Preferred outcomes compose over sequencing. -/
theorem firstRes_pseq {p q : RegexM} {s s₁ : List Char} {c c₁ : Caps} {r : List Char × Caps}
    (hp : firstRes p s c (s₁, c₁)) (hq : firstRes q s₁ c₁ r) : firstRes (pseq p q) s c r := by
  obtain ⟨ts, hts⟩ := hp
  obtain ⟨ts₂, hts₂⟩ := hq
  exact ⟨ts₂ ++ ts.flatMap fun x => q x.1 x.2, by simp [pseq, hts, hts₂]⟩

/-- The preferred outcome of the left alternative is preferred overall. -/
theorem firstRes_palt_left {p q : RegexM} {s : List Char} {c : Caps} {r : List Char × Caps}
    (hp : firstRes p s c r) : firstRes (palt p q) s c r := by
  obtain ⟨ts, hts⟩ := hp
  exact ⟨ts ++ q s c, by simp [palt, hts]⟩

/-- When the left alternative fails outright, the right one decides. -/
theorem firstRes_palt_right {p q : RegexM} {s : List Char} {c : Caps} {r : List Char × Caps}
    (hp : p s c = []) (hq : firstRes q s c r) : firstRes (palt p q) s c r := by
  obtain ⟨ts, hts⟩ := hq
  exact ⟨ts, by simp [palt, hp, hts]⟩

/-- A greedy optional whose body fails is skipped. -/
theorem firstRes_popt_skip {p : RegexM} {s : List Char} {c : Caps}
    (hp : p s c = []) : firstRes (popt p) s c (s, c) :=
  firstRes_palt_right hp ⟨[], rfl⟩

/-- A literal fails when it is not a prefix of the input. -/
theorem plit_fail {t s : List Char} {c : Caps} (h : t.isPrefixOf s = false) :
    plit t s c = [] := by
  simp [plit, h]

/-- A sequence fails when its first fragment fails. -/
theorem pseq_fail_left {p q : RegexM} {s : List Char} {c : Caps}
    (hp : p s c = []) : pseq p q s c = [] := by
  simp [pseq, hp]

/-- A list is a prefix of itself followed by anything. -/
theorem isPrefixOf_self_append (t u : List Char) : t.isPrefixOf (t ++ u) = true := by
  induction t with
  | nil => simp [List.isPrefixOf]
  | cons x xs ih => simp [List.isPrefixOf, ih]

/-- Distinct head characters refute a prefix. -/
theorem isPrefixOf_cons_ne {x y : Char} (t s : List Char) (h : ¬(x = y)) :
    (x :: t).isPrefixOf (y :: s) = false := by
  simp [List.isPrefixOf]
  intro hxy
  exact absurd hxy h

/-- A literal consumes exactly itself. -/
theorem firstRes_plit_append (t u : List Char) (c : Caps) :
    firstRes (plit t) (t ++ u) c (u, c) :=
  ⟨[], by simp [plit, isPrefixOf_self_append, List.drop_left]⟩

/-- When the input splits into a full run of the class followed by a
non-member (or the end), the greedy-first tail is that remainder. -/
theorem greedyTails_first {f : Char → Bool} :
    ∀ (m r : List Char), (∀ x ∈ m, f x = true) → (∀ y ∈ r.take 1, f y = false) →
      ∃ ts, greedyTails f (m ++ r) = r :: ts := by
  intro m
  induction m with
  | nil =>
    intro r _ hr
    cases r with
    | nil => exact ⟨[], rfl⟩
    | cons y ys =>
      have hy : f y = false := hr y (by simp)
      exact ⟨[], by simp [greedyTails, hy]⟩
  | cons x xs ih =>
    intro r hm hr
    have hx : f x = true := hm x (by simp)
    obtain ⟨ts, hts⟩ := ih r (fun z hz => hm z (by simp [hz])) hr
    exact ⟨ts ++ [x :: (xs ++ r)], by simp [greedyTails, hx, hts]⟩

/-- Greedy star prefers consuming the whole run of the class. -/
theorem firstRes_pstar {f : Char → Bool} (m r : List Char) (c : Caps)
    (hm : ∀ x ∈ m, f x = true) (hr : ∀ y ∈ r.take 1, f y = false) :
    firstRes (pstar f) (m ++ r) c (r, c) := by
  obtain ⟨ts, hts⟩ := greedyTails_first m r hm hr
  exact ⟨ts.map fun x => (x, c), by simp [pstar, hts]⟩

/-- Greedy plus prefers consuming the whole nonempty run of the class. -/
theorem firstRes_pplus {f : Char → Bool} (m r : List Char) (c : Caps)
    (hne : ¬(m = [])) (hm : ∀ x ∈ m, f x = true) (hr : ∀ y ∈ r.take 1, f y = false) :
    firstRes (pplus f) (m ++ r) c (r, c) := by
  cases m with
  | nil => exact absurd rfl hne
  | cons x xs =>
    have hx : f x = true := hm x (by simp)
    obtain ⟨ts, hts⟩ := greedyTails_first xs r (fun z hz => hm z (by simp [hz])) hr
    exact ⟨ts.map fun z => (z, c), by simp [pplus, hx, hts]⟩

/-- A group around a fragment that consumed `m` captures `m`. -/
theorem firstRes_pgroup_append {p : RegexM} {m r : List Char} {c c' : Caps} (n : Nat)
    (hp : firstRes p (m ++ r) c (r, c')) :
    firstRes (pgroup n p) (m ++ r) c (r, (n, m) :: c') := by
  obtain ⟨ts, hts⟩ := hp
  have htake : (m ++ r).take ((m ++ r).length - r.length) = m := by
    simp [List.length_append, List.take_left]
  refine ⟨ts.map fun rr =>
      (rr.1, (n, (m ++ r).take ((m ++ r).length - rr.1.length)) :: rr.2), ?_⟩
  simp [pgroup, hts, htake]

/-- `exec` returns the captures of the preferred outcome. -/
theorem rexec_of_firstRes {p : RegexM} {s rest : List Char} {caps : Caps}
    (h : firstRes p s [] (rest, caps)) : rexec p s = some caps := by
  obtain ⟨ts, hts⟩ := h
  simp [rexec, hts]

/-- A word character is not whitespace. -/
theorem word_not_ws {c : Char} (h : isWordChar c = true) : wsChar c = false := by
  by_contra hw
  have hw' : wsChar c = true := by revert hw; cases wsChar c <;> simp
  have : ((c = ' ' ∨ c = '\t') ∨ c = '\n') ∨ c = '\r' := by
    simpa [wsChar] using hw'
  rcases this with ((h1 | h1) | h1) | h1 <;> subst h1 <;> exact absurd h (by decide)

/-- A word character differs from any non-word character. -/
theorem word_char_ne {c d : Char} (h : isWordChar c = true) (hd : isWordChar d = false) :
    ¬(c = d) := by
  intro he
  subst he
  rw [h] at hd
  exact Bool.noConfusion hd

/-- `dropWhile` is the identity when the head fails the predicate. -/
theorem dropWhile_head_not {f : Char → Bool} :
    ∀ l : List Char, (∀ y ∈ l.take 1, f y = false) → l.dropWhile f = l
  | [], _ => rfl
  | x :: xs, h => by simp [List.dropWhile_cons, h x (by simp)]

/-- Trimming is the identity on inputs flanked by non-whitespace. -/
theorem jsTrim_eq_self (l : List Char) (h1 : ∀ y ∈ l.take 1, wsChar y = false)
    (h2 : ∀ y ∈ l.reverse.take 1, wsChar y = false) : jsTrim l = l := by
  unfold jsTrim
  rw [dropWhile_head_not l h1, dropWhile_head_not l.reverse h2, List.reverse_reverse]

/-- Trimming is the identity on whitespace-free inputs. -/
theorem jsTrim_no_ws (l : List Char) (h : ∀ c ∈ l, wsChar c = false) : jsTrim l = l :=
  jsTrim_eq_self l (fun y hy => h y (List.take_subset 1 l hy))
    (fun y hy => h y (List.mem_reverse.mp (List.take_subset 1 l.reverse hy)))

/-- Splitting on an absent separator yields the whole input. -/
theorem splitOnChar_no_sep {c : Char} : ∀ l : List Char, (∀ x ∈ l, ¬(x = c)) →
    splitOnChar c l = [l]
  | [], _ => rfl
  | x :: xs, h => by
    have hx : ¬(x = c) := h x (by simp)
    have := splitOnChar_no_sep xs (fun z hz => h z (by simp [hz]))
    simp [splitOnChar, hx, this]

/-- `extractParameters` on a bare word-character name yields that name. -/
theorem extractParameters_word (nm : List Char) (hne : ¬(nm = []))
    (hw : ∀ c ∈ nm, isWordChar c = true) : extractParameters nm = [nm] := by
  have hcomma : splitOnChar ',' nm = [nm] :=
    splitOnChar_no_sep nm (fun z hz => word_char_ne (hw z hz) (by decide))
  have heq : splitOnChar '=' nm = [nm] :=
    splitOnChar_no_sep nm (fun z hz => word_char_ne (hw z hz) (by decide))
  have hcolon : splitOnChar ':' nm = [nm] :=
    splitOnChar_no_sep nm (fun z hz => word_char_ne (hw z hz) (by decide))
  have htrim : jsTrim nm = nm :=
    jsTrim_no_ws nm (fun z hz => word_not_ws (hw z hz))
  have hne' : nm.isEmpty = false := by
    cases nm with
    | nil => exact absurd rfl hne
    | cons z zs => rfl
  simp [extractParameters, hcomma, htrim, hne', splitHead, heq, hcolon]

/-- The JavaScript function pattern on `function <name>(<args>)`: only the
first alternative matches, so the match stops after capture group 1 (the
name) — no group captures the argument list. -/
theorem jsKeywordFunctionMatch (x : Char) (xs a : List Char)
    (hx : isWordChar x = true) (hxs : ∀ c ∈ xs, isWordChar c = true) :
    rexec jsFunctionPattern
      (chars "function" ++ ([' '] ++ ((x :: xs) ++ (chars "(" ++ (a ++ chars ")"))))) =
      some [(1, x :: xs)] := by
  apply rexec_of_firstRes
  unfold jsFunctionPattern
  have hfail : pseq (plit (chars "async")) sPlus
      (chars "function" ++ ([' '] ++ ((x :: xs) ++ (chars "(" ++ (a ++ chars ")"))))) [] = [] := by
    apply pseq_fail_left
    apply plit_fail
    rw [show chars "async" = 'a' :: chars "sync" from by decide,
        show chars "function" = 'f' :: chars "unction" from by decide, List.cons_append]
    exact isPrefixOf_cons_ne _ _ (by decide)
  have hword : ∀ c ∈ x :: xs, isWordChar c = true := by
    intro c hc
    rcases List.mem_cons.mp hc with h | h
    · exact h ▸ hx
    · exact hxs c h
  have h_sp : firstRes sPlus ([' '] ++ ((x :: xs) ++ (chars "(" ++ (a ++ chars ")")))) []
      ((x :: xs) ++ (chars "(" ++ (a ++ chars ")")), []) :=
    firstRes_pplus [' '] _ [] (by simp) (by decide)
      (fun y hy => by simp at hy; subst hy; exact word_not_ws hx)
  have h_gp : firstRes (pgroup 1 wPlus) ((x :: xs) ++ (chars "(" ++ (a ++ chars ")"))) []
      (chars "(" ++ (a ++ chars ")"), [(1, x :: xs)]) := by
    refine firstRes_pgroup_append 1 ?_
    refine firstRes_pplus (x :: xs) _ [] (by simp) hword ?_
    intro y hy
    rw [show chars "(" = ['('] from by decide] at hy
    simp at hy
    subst hy
    decide
  exact firstRes_pseq (firstRes_popt_skip hfail)
    (firstRes_palt_left
      (firstRes_pseq (firstRes_plit_append (chars "function") _ [])
        (firstRes_pseq h_sp h_gp)))

/-- The JavaScript function pattern on `const <name> = (<args>) =>`: the
arrow-function alternative matches and the variable name lands in capture
group 2 (the group `analyzeFunctionScope` feeds to parameter
extraction), while group 1 stays undefined. -/
theorem jsConstArrowMatch (x : Char) (xs a : List Char)
    (hx : isWordChar x = true) (hxs : ∀ c ∈ xs, isWordChar c = true)
    (ha : ∀ c ∈ a, ¬(c = ')')) :
    rexec jsFunctionPattern
      (chars "const" ++ ([' '] ++ ((x :: xs) ++ ([' '] ++ (chars "=" ++ ([' '] ++
        (chars "(" ++ (a ++ (chars ")" ++ ([' '] ++ chars "=>")))))))))) =
      some [(2, x :: xs)] := by
  apply rexec_of_firstRes
  unfold jsFunctionPattern
  have hword : ∀ c ∈ x :: xs, isWordChar c = true := by
    intro c hc
    rcases List.mem_cons.mp hc with h | h
    · exact h ▸ hx
    · exact hxs c h
  have hfail : pseq (plit (chars "async")) sPlus
      (chars "const" ++ ([' '] ++ ((x :: xs) ++ ([' '] ++ (chars "=" ++ ([' '] ++
        (chars "(" ++ (a ++ (chars ")" ++ ([' '] ++ chars "=>")))))))))) [] = [] := by
    apply pseq_fail_left
    apply plit_fail
    rw [show chars "async" = 'a' :: chars "sync" from by decide,
        show chars "const" = 'c' :: chars "onst" from by decide, List.cons_append]
    exact isPrefixOf_cons_ne _ _ (by decide)
  have hb1fail : pseq (plit (chars "function")) (pseq sPlus (pgroup 1 wPlus))
      (chars "const" ++ ([' '] ++ ((x :: xs) ++ ([' '] ++ (chars "=" ++ ([' '] ++
        (chars "(" ++ (a ++ (chars ")" ++ ([' '] ++ chars "=>")))))))))) [] = [] := by
    apply pseq_fail_left
    apply plit_fail
    rw [show chars "function" = 'f' :: chars "unction" from by decide,
        show chars "const" = 'c' :: chars "onst" from by decide, List.cons_append]
    exact isPrefixOf_cons_ne _ _ (by decide)
  have h2 : firstRes sPlus ([' '] ++ ((x :: xs) ++ ([' '] ++ (chars "=" ++ ([' '] ++
        (chars "(" ++ (a ++ (chars ")" ++ ([' '] ++ chars "=>"))))))))) []
      ((x :: xs) ++ ([' '] ++ (chars "=" ++ ([' '] ++ (chars "(" ++ (a ++ (chars ")" ++
        ([' '] ++ chars "=>"))))))), []) :=
    firstRes_pplus [' '] _ [] (by simp) (by decide)
      (fun y hy => by simp at hy; subst hy; exact word_not_ws hx)
  have h3 : firstRes (pgroup 2 wPlus) ((x :: xs) ++ ([' '] ++ (chars "=" ++ ([' '] ++
        (chars "(" ++ (a ++ (chars ")" ++ ([' '] ++ chars "=>")))))))) []
      ([' '] ++ (chars "=" ++ ([' '] ++ (chars "(" ++ (a ++ (chars ")" ++
        ([' '] ++ chars "=>")))))), [(2, x :: xs)]) := by
    refine firstRes_pgroup_append 2 ?_
    refine firstRes_pplus (x :: xs) _ [] (by simp) hword ?_
    intro y hy
    simp at hy
    subst hy
    decide
  have h4 : firstRes sStar ([' '] ++ (chars "=" ++ ([' '] ++ (chars "(" ++ (a ++
        (chars ")" ++ ([' '] ++ chars "=>"))))))) [(2, x :: xs)]
      (chars "=" ++ ([' '] ++ (chars "(" ++ (a ++ (chars ")" ++ ([' '] ++ chars "=>"))))),
        [(2, x :: xs)]) := by
    refine firstRes_pstar [' '] _ [(2, x :: xs)] (by decide) ?_
    intro y hy
    rw [show chars "=" = ['='] from by decide] at hy
    simp at hy
    subst hy
    decide
  have h5 : firstRes (plit (chars "=")) (chars "=" ++ ([' '] ++ (chars "(" ++ (a ++
        (chars ")" ++ ([' '] ++ chars "=>")))))) [(2, x :: xs)]
      ([' '] ++ (chars "(" ++ (a ++ (chars ")" ++ ([' '] ++ chars "=>")))), [(2, x :: xs)]) :=
    firstRes_plit_append (chars "=") _ [(2, x :: xs)]
  have h6 : firstRes sStar ([' '] ++ (chars "(" ++ (a ++ (chars ")" ++
        ([' '] ++ chars "=>"))))) [(2, x :: xs)]
      (chars "(" ++ (a ++ (chars ")" ++ ([' '] ++ chars "=>"))), [(2, x :: xs)]) := by
    refine firstRes_pstar [' '] _ [(2, x :: xs)] (by decide) ?_
    intro y hy
    rw [show chars "(" = ['('] from by decide] at hy
    simp at hy
    subst hy
    decide
  have h7 : firstRes (popt (pseq (plit (chars "async")) sPlus))
      (chars "(" ++ (a ++ (chars ")" ++ ([' '] ++ chars "=>")))) [(2, x :: xs)]
      (chars "(" ++ (a ++ (chars ")" ++ ([' '] ++ chars "=>"))), [(2, x :: xs)]) := by
    refine firstRes_popt_skip ?_
    apply pseq_fail_left
    apply plit_fail
    rw [show chars "async" = 'a' :: chars "sync" from by decide,
        show chars "(" = '(' :: ([] : List Char) from by decide, List.cons_append]
    exact isPrefixOf_cons_ne _ _ (by decide)
  have h8 : firstRes (plit (chars "(")) (chars "(" ++ (a ++ (chars ")" ++
        ([' '] ++ chars "=>")))) [(2, x :: xs)]
      (a ++ (chars ")" ++ ([' '] ++ chars "=>")), [(2, x :: xs)]) :=
    firstRes_plit_append (chars "(") _ [(2, x :: xs)]
  have h9 : firstRes (pstar fun c => !(c == ')')) (a ++ (chars ")" ++
        ([' '] ++ chars "=>"))) [(2, x :: xs)]
      (chars ")" ++ ([' '] ++ chars "=>"), [(2, x :: xs)]) := by
    refine firstRes_pstar a _ [(2, x :: xs)] ?_ ?_
    · intro c hc
      simp [ha c hc]
    · intro y hy
      rw [show chars ")" = [')'] from by decide] at hy
      simp at hy
      subst hy
      decide
  have h10 : firstRes (plit (chars ")")) (chars ")" ++ ([' '] ++ chars "=>"))
      [(2, x :: xs)] ([' '] ++ chars "=>", [(2, x :: xs)]) :=
    firstRes_plit_append (chars ")") _ [(2, x :: xs)]
  have h11 : firstRes sStar ([' '] ++ chars "=>") [(2, x :: xs)]
      (chars "=>", [(2, x :: xs)]) := by
    refine firstRes_pstar [' '] _ [(2, x :: xs)] (by decide) ?_
    intro y hy
    rw [show chars "=>" = '=' :: ['>'] from by decide] at hy
    simp at hy
    subst hy
    decide
  have h12 : firstRes (plit (chars "=>")) (chars "=>") [(2, x :: xs)]
      ([], [(2, x :: xs)]) := by
    have := firstRes_plit_append (chars "=>") [] [(2, x :: xs)]
    rwa [List.append_nil] at this
  exact firstRes_pseq (firstRes_popt_skip hfail)
    (firstRes_palt_right hb1fail
      (firstRes_palt_left
        (firstRes_pseq (firstRes_plit_append (chars "const") _ [])
          (firstRes_pseq h2
            (firstRes_pseq h3
              (firstRes_pseq h4
                (firstRes_pseq h5
                  (firstRes_pseq h6
                    (firstRes_pseq h7
                      (firstRes_pseq h8
                        (firstRes_pseq h9
                          (firstRes_pseq h10
                            (firstRes_pseq h11 h12)))))))))))))

/-- Trimming is the identity on a line flanked by non-whitespace
characters. -/
theorem jsTrim_flanked (x y : Char) (mid : List Char)
    (hx : wsChar x = false) (hy : wsChar y = false) :
    jsTrim (x :: (mid ++ [y])) = x :: (mid ++ [y]) := by
  apply jsTrim_eq_self
  · intro z hz
    simp at hz
    subst hz
    exact hx
  · intro z hz
    simp [List.reverse_cons, List.reverse_append] at hz
    subst hz
    exact hy

/-- C9: in a JavaScript document, a declaration of the keyword form
`function name(...)` yields a `FunctionScope` with that name and an empty
parameter list (the matched branch has no parameter capture group), while
`const name = (...) =>` yields the name `anonymous` with the parameter
list `[name]`, because `analyzeFunctionScope` reads the name only from
capture group 1 and feeds capture group 2 — the const-arrow variable
name — to `extractParameters`. -/
theorem c9_js_scope_extraction_quirk (n a : List Char) (hn : ¬(n = []))
    (hnw : ∀ c ∈ n, isWordChar c = true) (ha : ∀ c ∈ a, ¬(c = ')')) :
    ((analyzeFunctionScope
        ⟨"f.js", "javascript",
          [String.mk (chars "function " ++ n ++ chars "(" ++ a ++ chars ")")]⟩
        ⟨0, 0⟩).map fun f => (f.name, f.parameters)) = some (n, [])
    ∧ ((analyzeFunctionScope
        ⟨"f.js", "javascript",
          [String.mk (chars "const " ++ n ++ chars " = (" ++ a ++ chars ") =>")]⟩
        ⟨0, 0⟩).map fun f => (f.name, f.parameters)) = some (chars "anonymous", [n]) := by
  obtain ⟨x, xs, rfl⟩ := List.exists_cons_of_ne_nil hn
  have hx : isWordChar x = true := hnw x (by simp)
  have hxs : ∀ c ∈ xs, isWordChar c = true := fun c hc => hnw c (by simp [hc])
  constructor
  · -- keyword form
    have hl : chars "function " ++ (x :: xs) ++ chars "(" ++ a ++ chars ")" =
        chars "function" ++ ([' '] ++ ((x :: xs) ++ (chars "(" ++ (a ++ chars ")")))) := by
      rw [show chars "function " = chars "function" ++ [' '] from by decide]
      simp [List.append_assoc]
    have htrim : jsTrim (chars "function" ++ ([' '] ++ ((x :: xs) ++
        (chars "(" ++ (a ++ chars ")"))))) =
        chars "function" ++ ([' '] ++ ((x :: xs) ++ (chars "(" ++ (a ++ chars ")")))) := by
      have hform : chars "function" ++ ([' '] ++ ((x :: xs) ++
          (chars "(" ++ (a ++ chars ")")))) =
          'f' :: ((chars "unction" ++ ([' '] ++ ((x :: xs) ++ (chars "(" ++ a)))) ++ [')']) := by
        rw [show chars "function" = 'f' :: chars "unction" from by decide,
          show chars ")" = [')'] from by decide]
        simp [List.append_assoc]
      rw [hform]
      exact jsTrim_flanked 'f' ')' _ (by decide) (by decide)
    simp only [analyzeFunctionScope, analyzeFunctionScopeAux, functionScopeAt,
      show languageConfigs "javascript" = some javascriptConfig from rfl,
      show (⟨"f.js", "javascript",
        [String.mk (chars "function " ++ (x :: xs) ++ chars "(" ++ a ++ chars ")")]⟩ :
        Document).languageId = "javascript" from rfl]
    rw [show chars (lineAt ⟨"f.js", "javascript",
        [String.mk (chars "function " ++ (x :: xs) ++ chars "(" ++ a ++ chars ")")]⟩ 0) =
        chars "function " ++ (x :: xs) ++ chars "(" ++ a ++ chars ")" from rfl, hl, htrim]
    rw [show javascriptConfig.functionPattern = jsFunctionPattern from rfl,
      jsKeywordFunctionMatch x xs a hx hxs]
    simp [capGet, jsOrStr, List.find?,
      show extractParameters [] = [] from by decide]
  · -- const-arrow form
    have hl : chars "const " ++ (x :: xs) ++ chars " = (" ++ a ++ chars ") =>" =
        chars "const" ++ ([' '] ++ ((x :: xs) ++ ([' '] ++ (chars "=" ++ ([' '] ++
          (chars "(" ++ (a ++ (chars ")" ++ ([' '] ++ chars "=>"))))))))) := by
      rw [show chars "const " = chars "const" ++ [' '] from by decide,
        show chars " = (" = [' '] ++ (chars "=" ++ ([' '] ++ chars "(")) from by decide,
        show chars ") =>" = chars ")" ++ ([' '] ++ chars "=>") from by decide]
      simp [List.append_assoc]
    have htrim : jsTrim (chars "const" ++ ([' '] ++ ((x :: xs) ++ ([' '] ++ (chars "=" ++
        ([' '] ++ (chars "(" ++ (a ++ (chars ")" ++ ([' '] ++ chars "=>")))))))))) =
        chars "const" ++ ([' '] ++ ((x :: xs) ++ ([' '] ++ (chars "=" ++ ([' '] ++
          (chars "(" ++ (a ++ (chars ")" ++ ([' '] ++ chars "=>"))))))))) := by
      have hform : chars "const" ++ ([' '] ++ ((x :: xs) ++ ([' '] ++ (chars "=" ++
          ([' '] ++ (chars "(" ++ (a ++ (chars ")" ++ ([' '] ++ chars "=>"))))))))) =
          'c' :: ((chars "onst" ++ ([' '] ++ ((x :: xs) ++ ([' '] ++ (chars "=" ++
            ([' '] ++ (chars "(" ++ (a ++ (chars ")" ++ ([' '] ++ ['=']))))))))))
            ++ ['>']) := by
        rw [show chars "const" = 'c' :: chars "onst" from by decide,
          show chars "=>" = ['='] ++ ['>'] from by decide]
        simp [List.append_assoc]
      rw [hform]
      exact jsTrim_flanked 'c' '>' _ (by decide) (by decide)
    simp only [analyzeFunctionScope, analyzeFunctionScopeAux, functionScopeAt,
      show languageConfigs "javascript" = some javascriptConfig from rfl,
      show (⟨"f.js", "javascript",
        [String.mk (chars "const " ++ (x :: xs) ++ chars " = (" ++ a ++ chars ") =>")]⟩ :
        Document).languageId = "javascript" from rfl]
    rw [show chars (lineAt ⟨"f.js", "javascript",
        [String.mk (chars "const " ++ (x :: xs) ++ chars " = (" ++ a ++ chars ") =>")]⟩ 0) =
        chars "const " ++ (x :: xs) ++ chars " = (" ++ a ++ chars ") =>" from rfl, hl, htrim]
    rw [show javascriptConfig.functionPattern = jsFunctionPattern from rfl,
      jsConstArrowMatch x xs a hx hxs ha]
    simp [capGet, jsOrStr, List.find?,
      extractParameters_word (x :: xs) hn hnw]


/-- Witness for `c9_js_scope_extraction_quirk` at name `foo` and argument
text `a, b`. -/
theorem c9_js_scope_extraction_quirk_witness :
    ((analyzeFunctionScope ⟨"f.js", "javascript",
        [String.mk (chars "function " ++ chars "foo" ++ chars "(" ++ chars "a, b" ++
          chars ")")]⟩ ⟨0, 0⟩).map fun f => (f.name, f.parameters)) =
      some (chars "foo", [])
    ∧ ((analyzeFunctionScope ⟨"f.js", "javascript",
        [String.mk (chars "const " ++ chars "foo" ++ chars " = (" ++ chars "a, b" ++
          chars ") =>")]⟩ ⟨0, 0⟩).map fun f => (f.name, f.parameters)) =
      some (chars "anonymous", [chars "foo"]) :=
  c9_js_scope_extraction_quirk (chars "foo") (chars "a, b") (by decide) (by decide) (by decide)
